import Mathlib

/-!
vmdaemon: credential provider and kubeconfig synthesis.

A shallow embedding of `main.go`: the two kubeconfig templates, the
`fmt.Sprintf` fragment they use, the instance identity reader `getVMInfo`,
the token exchanger `getCredentials`, the configuration synthesizer
`newKubeConfig`, the local override `getKubeConfig` and the dispatch in
`main`.  Calls that leave the process (metadata service, cluster management
API, file system, clock, the client-go loaders) are fields of an
environment record and every call is recorded in a trace.
-/

namespace VMDaemon

/-! ## Strings -/

/-- Go `strings.HasPrefix(s, p)`. -/
def hasPrefix (s p : String) : Bool := p.data.isPrefixOf s.data

/-- Go slice expression `s[n:]` (the only use is behind an ASCII prefix test,
so bytes and characters coincide). -/
def sliceFrom (s : String) (n : Nat) : String := ⟨s.data.drop n⟩

/-- Substring test: `pat` occurs in `s`. -/
def occursIn (pat s : String) : Prop := pat.data <:+: s.data

instance (pat s : String) : Decidable (occursIn pat s) := by
  unfold occursIn; infer_instance

/-! ## The `fmt.Sprintf` fragment used by the templates

Only literal text, `%%`, `%s` and the explicit argument index `%[n]s` are
modelled; any other directive is outside the fragment (`none`). -/

/-- Scanner position of the format loop. -/
inductive FmtMode where
  /-- copying literal text -/
  | text
  /-- directly after a percent sign -/
  | verb
  /-- inside `[n`, with the digits read so far -/
  | index (n : Nat) (seen : Bool)
  /-- after `[n]`, a verb must follow -/
  | indexed (n : Nat)
  deriving DecidableEq, Repr

/-- The format loop: `argNum` is the next sequential argument. -/
def sprintfAux : FmtMode → Nat → List Char → List String → Option (List Char)
  | .text, _, [], _ => some []
  | _, _, [], _ => none
  | .text, argNum, c :: cs, a =>
    if c = '%' then sprintfAux .verb argNum cs a
    else (sprintfAux .text argNum cs a).map (fun r => c :: r)
  | .verb, argNum, c :: cs, a =>
    if c = '%' then (sprintfAux .text argNum cs a).map (fun r => '%' :: r)
    else if c = '[' then sprintfAux (.index 0 false) argNum cs a
    else if c = 's' then
      match a.get? argNum with
      | some v => (sprintfAux .text (argNum + 1) cs a).map (fun r => v.data ++ r)
      | none => none
    else none
  | .index n seen, argNum, c :: cs, a =>
    if c.isDigit then sprintfAux (.index (10 * n + (c.toNat - 48)) true) argNum cs a
    else if c = ']' ∧ seen = true then sprintfAux (.indexed n) argNum cs a
    else none
  | .indexed n, _, c :: cs, a =>
    if c = 's' ∧ 1 ≤ n then
      match a.get? (n - 1) with
      | some v => (sprintfAux .text n cs a).map (fun r => v.data ++ r)
      | none => none
    else none

/-- Go `fmt.Sprintf(format, a...)` on string arguments. -/
def sprintf (format : String) (a : List String) : Option String :=
  (sprintfAux .text 0 format.data a).map String.mk

/-- Template of the exec-credential (service account of the VM) variant. -/
def kubeConfigGsaTemp : String :=
  "\napiVersion: v1\nclusters:\n- cluster:\n    certificate-authority-data: %[1]s\n    server: https://%[2]s\n  name: %[3]s\ncontexts:\n- context:\n    cluster: %[3]s\n    user: %[3]s\n  name: %[3]s\ncurrent-context: %[3]s\nkind: Config\npreferences: \x7b\x7d\nusers:\n- name: %[3]s\n  user:\n    auth-provider:\n      config:\n        cmd-args: get-credential\n        cmd-path: %[4]s\n        expiry-key: \x27\x7b.token_expiry\x7d\x27\n        token-key: \x27\x7b.access_token\x7d\x27\n      name: gcp"

/-- Template of the static bearer-token (Kubernetes service account) variant. -/
def kubeConfigKsaTemp : String :=
  "\n      apiVersion: v1\n      clusters:\n      - cluster:\n          certificate-authority-data: %[1]s\n          server: https://%[2]s\n        name: %[3]s\n      contexts:\n      - context:\n          cluster: %[3]s\n          user: %[4]s\n        name: %[3]s\n      current-context: %[3]s\n      kind: Config\n      preferences: \x7b\x7d\n      users:\n      - name: %[4]s\n        user:\n          token: %[5]s"

/-! ## Runs: trace of outside calls and outcome -/

/-- How a run stops early. -/
inductive Abort where
  /-- Go `panic(err.Error())`, or a runtime panic -/
  | goPanic (msg : String)
  /-- Go `klog.Fatalf` -/
  | fatalf (msg : String)
  /-- a format directive outside the modelled `Sprintf` fragment -/
  | badFormat
  deriving DecidableEq, Repr

/-- JSON values as far as `k8sCredential` needs them. -/
inductive JSON where
  | str (s : String)
  | obj (fields : List (String × JSON))
  deriving Repr

/-- Calls that leave the process, in the order they are made. -/
inductive Event where
  /-- a call of the metadata client: method name and argument -/
  | metadata (method arg : String)
  /-- `transport.NewHTTPClient` -/
  | newHTTPClient
  /-- `gkev1.New` -/
  | gkeNew
  /-- `clusterSvc.Get(project, zone, name).Do()` -/
  | clusterGet (project zone name : String)
  /-- `os.Stat(path)` -/
  | stat (path : String)
  /-- `clientcmd.BuildConfigFromFlags("", path)` -/
  | buildConfigFromFlags (path : String)
  /-- `os.Getwd()` -/
  | getwd
  /-- `clientcmd.RESTConfigFromKubeConfig(doc)` -/
  | restConfigFromKubeConfig (doc : String)
  /-- the diagnostic `klog.V(0).Infof("Faild to fetch label %s: %q", name, err)` -/
  | labelFailure (name err : String)
  /-- `kubernetes.NewForConfig` -/
  | newForConfig
  /-- `podsClient.List` -/
  | listPods
  /-- a line of text on standard output -/
  | stdout (line : String)
  /-- a line of text on standard error (the builtin `println`) -/
  | stderr (line : String)
  /-- a marshalled JSON value printed on standard output -/
  | stdoutJSON (v : JSON)
  deriving Repr

/-- Is the event the cluster management API read? -/
def Event.isClusterGet : Event → Bool
  | .clusterGet _ _ _ => true
  | _ => false

/-- Is the event a call of the metadata client? -/
def Event.isMetadata : Event → Bool
  | .metadata _ _ => true
  | _ => false

/-- Is the event part of the identity read (metadata call or its diagnostic)? -/
def Event.isReader : Event → Bool
  | .metadata _ _ => true
  | .labelFailure _ _ => true
  | _ => false

/-- Is the event the parse of a synthesized document? -/
def Event.isSynthesis : Event → Bool
  | .restConfigFromKubeConfig _ => true
  | _ => false

/-- A run: the outside calls made so far and how it ended. -/
structure Run (α : Type) where
  trace : List Event
  out : Except Abort α

namespace Run

/-- Return a value without calling out. -/
def ret {α : Type} (a : α) : Run α := ⟨[], .ok a⟩

/-- Stop the process. -/
def abort {α : Type} (e : Abort) : Run α := ⟨[], .error e⟩

/-- Record one outside call and hand back its result. -/
def call {α : Type} (ev : Event) (r : α) : Run α := ⟨[ev], .ok r⟩

/-- Sequencing: an abort skips everything after it. -/
def andThen {α β : Type} (x : Run α) (f : α → Run β) : Run β :=
  match x.out with
  | .error e => ⟨x.trace, .error e⟩
  | .ok a => ⟨x.trace ++ (f a).trace, (f a).out⟩

instance : Monad Run where
  pure := ret
  bind := andThen

end Run

/-! ## Outside world -/

/-- Result pair `(string, error)` of a Go call.  The metadata client and
`os.Getwd` return the empty string together with every error. -/
inductive Lookup where
  | ok (val : String)
  | fail (err : String)
  deriving DecidableEq, Repr

/-- First component of the pair. -/
def Lookup.val : Lookup → String
  | .ok v => v
  | .fail _ => ""

/-- Second component of the pair (`none` is Go `nil`). -/
def Lookup.err : Lookup → Option String
  | .ok _ => none
  | .fail e => some e

/-- The instance metadata client (`cloud.google.com/go/compute/metadata`). -/
structure Metadata where
  instanceName : Lookup
  hostname : Lookup
  internalIP : Lookup
  externalIP : Lookup
  projectID : Lookup
  instanceAttributeValue : String → Lookup
  instanceAttributes : Except String (List String)
  get : String → Lookup

/-- Go `map[string]string`, as an association list with unique keys. -/
abbrev GoMap := List (String × String)

/-- Map assignment `m[k] = v`. -/
def GoMap.set (m : GoMap) (k v : String) : GoMap :=
  m.filter (fun e => e.1 != k) ++ [(k, v)]

/-- Map read `m[k]` with the comma-ok result. -/
def GoMap.get? (m : GoMap) (k : String) : Option String :=
  (m.find? (fun e => e.1 == k)).map Prod.snd

structure gsaToken where
  AccessToken : String
  ExpiresIn : Int
  TokenType : String
  deriving DecidableEq, Repr

structure k8sCredential where
  AccessToken : String
  TokenExpiry : String
  deriving DecidableEq, Repr

structure vmInfo where
  InstanceName : String
  Hostname : String
  InternalIP : String
  ExternalIP : String
  ProjectID : String
  ClusterName : String
  ClusterZone : String
  VMLabels : GoMap
  KsaName : String
  KsaToken : String
  deriving DecidableEq, Repr

/-- Field `MasterAuth` of the cluster resource. -/
structure MasterAuth where
  ClusterCaCertificate : String
  deriving DecidableEq, Repr

/-- The fields of `gkev1.Cluster` that are read; `MasterAuth` is a pointer. -/
structure Cluster where
  MasterAuth : Option MasterAuth
  Endpoint : String
  Name : String
  deriving DecidableEq, Repr

/-- Error of `os.Stat`, as far as `os.IsNotExist` tells them apart. -/
inductive StatErr where
  | notExist
  | other
  deriving DecidableEq, Repr

/-- Go `time.Time`: the instant in nanoseconds since the Unix epoch and the
offset of its location in seconds east of UTC. -/
structure Time where
  unixNano : Int
  offset : Int
  deriving DecidableEq, Repr

/-- Everything outside the process; `κ` is `*rest.Config`. -/
structure Env (κ : Type) where
  /-- `os.Args` -/
  args : List String
  md : Metadata
  /-- `homedir.HomeDir()` -/
  home : String
  /-- `os.Getwd()` -/
  getwd : Lookup
  /-- `filepath.Join` -/
  join : List String → String
  /-- error of `os.Stat(path)`, `none` when the file is there -/
  stat : String → Option StatErr
  buildConfigFromFlags : String → Except String κ
  restConfigFromKubeConfig : String → Except String κ
  /-- error of `transport.NewHTTPClient` -/
  newHTTPClient : Option String
  /-- error of `gkev1.New` -/
  gkeNew : Option String
  clusterGet : String → String → String → Except String Cluster
  /-- `json.Unmarshal` into a `gsaToken` -/
  unmarshal : String → Except String gsaToken
  /-- `time.Now()` -/
  now : Time
  /-- error of `kubernetes.NewForConfig` -/
  newForConfig : κ → Option String
  /-- names of the pods returned by `podsClient.List` -/
  listPods : κ → Except String (List String)

/-! ## Time (`time.Duration`, `time.Time`, layout `time.RFC3339`) -/

/-- Go `time.Second`, in nanoseconds. -/
def Second : Int := 1000000000

/-- Two's-complement wrap of Go `int64` arithmetic. -/
def wrapInt64 (x : Int) : Int := (x + 2 ^ 63) % 2 ^ 64 - 2 ^ 63

/-- The expression `time.Duration(n) * time.Second`. -/
def secondsDuration (n : Int) : Int := wrapInt64 (wrapInt64 n * Second)

/-- Go `t.Add(d)`: the location is kept.  (A `Time` counts seconds in an
`int64`; no `int64` nanosecond duration moves a clock reading out of it, so
the sum is exact.) -/
def Time.Add (t : Time) (d : Int) : Time := { t with unixNano := t.unixNano + d }

/-- Go `t.UTC()`: same instant, location UTC. -/
def Time.UTC (t : Time) : Time := { t with offset := 0 }

/-- Calendar fields of a timestamp; `zone` is the offset in seconds. -/
structure Civil where
  year : Int
  month : Int
  day : Int
  hour : Int
  minute : Int
  second : Int
  zone : Int
  deriving DecidableEq, Repr

/-- Go `isLeap`. -/
def isLeap (year : Int) : Bool := year % 4 = 0 ∧ (year % 100 ≠ 0 ∨ year % 400 = 0)

/-- Month and day of the month for a day of the year counted from 0 in a
year without leap day (the lookup in Go `daysBefore`). -/
def monthDay (d : Int) : Int × Int :=
  if d < 31 then (1, d + 1)
  else if d < 59 then (2, d - 31 + 1)
  else if d < 90 then (3, d - 59 + 1)
  else if d < 120 then (4, d - 90 + 1)
  else if d < 151 then (5, d - 120 + 1)
  else if d < 181 then (6, d - 151 + 1)
  else if d < 212 then (7, d - 181 + 1)
  else if d < 243 then (8, d - 212 + 1)
  else if d < 273 then (9, d - 243 + 1)
  else if d < 304 then (10, d - 273 + 1)
  else if d < 334 then (11, d - 304 + 1)
  else (12, d - 334 + 1)

/-- The cycle counts of Go `absDate` for a day number counted from
0001-01-01: 400-year, 100-year and 4-year cycles, years, and the day of the
year. -/
def cycles (d : Int) : Int × Int × Int × Int × Int :=
  let n400 := d / 146097
  let d := d - 146097 * n400
  let n100 := d / 36524
  let n100 := n100 - n100 / 4
  let d := d - 36524 * n100
  let n4 := d / 1461
  let d := d - 1461 * n4
  let n1 := d / 365
  let n1 := n1 - n1 / 4
  (n400, n100, n4, n1, d - 365 * n1)

/-- Year, month and day of the proleptic Gregorian calendar for a day
number counted from 1970-01-01 (Go `absDate`). -/
def civilFromDays (z : Int) : Int × Int × Int :=
  let c := cycles (z + 719162)
  let year := 400 * c.1 + 100 * c.2.1 + 4 * c.2.2.1 + c.2.2.2.1 + 1
  let yday := c.2.2.2.2
  if isLeap year = true ∧ yday = 59 then (year, 2, 29)
  else
    let day := if isLeap year = true ∧ yday > 59 then yday - 1 else yday
    (year, (monthDay day).1, (monthDay day).2)

/-- The calendar fields Go computes for `t` in the location of `t`; the
fraction of a second plays no role in layout RFC3339. -/
def Time.civil (t : Time) : Civil :=
  let sec := t.unixNano / 1000000000 + t.offset
  let ymd := civilFromDays (sec / 86400)
  let r := sec % 86400
  { year := ymd.1, month := ymd.2.1, day := ymd.2.2,
    hour := r / 3600, minute := r % 3600 / 60, second := r % 60, zone := t.offset }

/-- Go `appendInt(b, x, width)`: decimal, zero-padded to `width`. -/
def appendInt (x : Int) (width : Nat) : String :=
  let digits := Nat.repr x.natAbs
  (if x < 0 then "-" else "") ++ String.mk (List.replicate (width - digits.length) '0') ++ digits

/-- Layout element `Z07:00`. -/
def zoneText (offset : Int) : String :=
  if offset = 0 then "Z"
  else
    let zone := Int.tdiv offset 60
    (if zone < 0 then "-" else "+") ++ appendInt (Int.natAbs zone / 60) 2 ++ ":" ++
      appendInt (Int.natAbs zone % 60) 2

/-- The text of layout `2006-01-02T15:04:05Z07:00` for given fields. -/
def Civil.rfc3339 (c : Civil) : String :=
  appendInt c.year 4 ++ "-" ++ appendInt c.month 2 ++ "-" ++ appendInt c.day 2 ++ "T" ++
    appendInt c.hour 2 ++ ":" ++ appendInt c.minute 2 ++ ":" ++ appendInt c.second 2 ++
    zoneText c.zone

/-- Go `t.Format(time.RFC3339)`. -/
def Time.Format (t : Time) : String := t.civil.rfc3339

/-! ## Token exchanger -/

/-- Go `json.Marshal` of a `k8sCredential`: the struct tags are the keys. -/
def marshal (cred : k8sCredential) : JSON :=
  .obj [("access_token", .str cred.AccessToken), ("token_expiry", .str cred.TokenExpiry)]

/-- The credential built from a grant at time `now` (lines 108 to 111). -/
def credential (token : gsaToken) (now : Time) : k8sCredential :=
  let expiryTime := now.Add (secondsDuration token.ExpiresIn)
  { AccessToken := token.AccessToken, TokenExpiry := expiryTime.UTC.Format }

/-- The pattern `if err != nil { panic(err.Error()) }` after a call. -/
def must (ev : Event) (r : Lookup) : Run String := do
  let r ← Run.call ev r
  match r with
  | .fail e => Run.abort (.goPanic e)
  | .ok v => pure v

def getCredentials {κ : Type} (env : Env κ) : Run Unit := do
  let jsonData ← must (.metadata "Get" "instance/service-accounts/default/token")
    (env.md.get "instance/service-accounts/default/token")
  match env.unmarshal jsonData with
  | .error e => Run.abort (.goPanic e)
  | .ok token =>
    let cred := credential token env.now
    Run.call (.stdoutJSON (marshal cred)) ()

/-! ## Instance identity reader -/

/-- The loop over the attribute names (lines 166 to 174). -/
def labelLoop (md : Metadata) : List String → GoMap → Run GoMap
  | [], m => pure m
  | name :: rest, m =>
    if hasPrefix name "k8s-label-" then do
      let r ← Run.call (.metadata "InstanceAttributeValue" name) (md.instanceAttributeValue name)
      match r.err with
      | some e =>
        let _ ← Run.call (.labelFailure name e) ()
        labelLoop md rest (m.set (sliceFrom name 10) r.val)
      | none => labelLoop md rest (m.set (sliceFrom name 10) r.val)
    else labelLoop md rest m

/-- The pattern `if err != nil { x = "" }` after a call. -/
def orEmpty (ev : Event) (r : Lookup) : Run String := do
  let r ← Run.call ev r
  match r.err with
  | some _ => pure ""
  | none => pure r.val

def getVMInfo (md : Metadata) : Run vmInfo := do
  let instanceName ← must (.metadata "InstanceName" "") md.instanceName
  let hostname ← must (.metadata "Hostname" "") md.hostname
  let internalIP ← must (.metadata "InternalIP" "") md.internalIP
  let externalIP ← must (.metadata "ExternalIP" "") md.externalIP
  let projectID ← must (.metadata "ProjectID" "") md.projectID
  let clusterName ← must (.metadata "InstanceAttributeValue" "k8s-cluster-name")
    (md.instanceAttributeValue "k8s-cluster-name")
  let clusterZone ← must (.metadata "InstanceAttributeValue" "k8s-cluster-zone")
    (md.instanceAttributeValue "k8s-cluster-zone")
  let ksaName ← orEmpty (.metadata "InstanceAttributeValue" "k8s-sa-name")
    (md.instanceAttributeValue "k8s-sa-name")
  let ksaToken ← orEmpty (.metadata "InstanceAttributeValue" "k8s-sa-token")
    (md.instanceAttributeValue "k8s-sa-token")
  let attrs ← Run.call (.metadata "InstanceAttributes" "") md.instanceAttributes
  match attrs with
  | .error e => Run.abort (.goPanic e)
  | .ok attrs =>
    let labels ← labelLoop md attrs []
    pure { InstanceName := instanceName, Hostname := hostname, InternalIP := internalIP,
           ExternalIP := externalIP, ProjectID := projectID, ClusterName := clusterName,
           ClusterZone := clusterZone, VMLabels := labels, KsaName := ksaName,
           KsaToken := ksaToken }

/-! ## Configuration synthesizer -/

/-- The pattern `if err != nil { klog.Fatalf(msg, err) }`. -/
def fatalIf (msg : String) : Option String → Run Unit
  | some e => Run.abort (.fatalf (msg ++ e))
  | none => pure ()

/-- A `Sprintf` result as a run. -/
def formatted : Option String → Run String
  | some s => pure s
  | none => Run.abort .badFormat

/-- The document text (lines 218 to 230). -/
def kubeConfig {κ : Type} (env : Env κ) (cluster : Cluster) (vm : vmInfo) : Run String :=
  if vm.KsaName ≠ "" ∧ vm.KsaToken ≠ "" then
    match cluster.MasterAuth with
    | none => Run.abort (.goPanic "runtime error: invalid memory address or nil pointer dereference")
    | some auth =>
      formatted (sprintf kubeConfigKsaTemp
        [auth.ClusterCaCertificate, cluster.Endpoint, cluster.Name, vm.KsaName, vm.KsaToken])
  else do
    let pwd ← Run.call .getwd env.getwd
    fatalIf "failed to get current dir: " pwd.err
    match env.args with
    | [] => Run.abort (.goPanic "runtime error: index out of range [0] with length 0")
    | arg0 :: _ =>
      let path := env.join [pwd.val, arg0]
      match cluster.MasterAuth with
      | none => Run.abort (.goPanic "runtime error: invalid memory address or nil pointer dereference")
      | some auth =>
        formatted (sprintf kubeConfigGsaTemp
          [auth.ClusterCaCertificate, cluster.Endpoint, cluster.Name, path])

def newKubeConfig {κ : Type} (env : Env κ) (vm : vmInfo) : Run κ := do
  let err ← Run.call .newHTTPClient env.newHTTPClient
  fatalIf "failed to initalize http client: " err
  let err ← Run.call .gkeNew env.gkeNew
  fatalIf "failed to initialize gke client: " err
  let r ← Run.call (.clusterGet vm.ProjectID vm.ClusterZone vm.ClusterName)
    (env.clusterGet vm.ProjectID vm.ClusterZone vm.ClusterName)
  match r with
  | .error e => Run.abort (.fatalf ("failed to get gke cluster: " ++ e))
  | .ok cluster =>
    let doc ← kubeConfig env cluster vm
    let r ← Run.call (.restConfigFromKubeConfig doc) (env.restConfigFromKubeConfig doc)
    match r with
    | .error e => Run.abort (.fatalf ("failed to create kubeconfig: " ++ e))
    | .ok config => pure config

/-! ## Bootstrap driver -/

def getKubeConfig {κ : Type} (env : Env κ) (vm : vmInfo) : Run κ := do
  let home := env.home
  let useConfigFile ←
    if home ≠ "" then do
      let err ← Run.call (.stat (env.join [env.home, ".kube", "config"]))
        (env.stat (env.join [env.home, ".kube", "config"]))
      pure (decide (err ≠ some StatErr.notExist))
    else pure false
  if useConfigFile then do
    let r ← Run.call (.buildConfigFromFlags (env.join [env.home, ".kube", "config"]))
      (env.buildConfigFromFlags (env.join [env.home, ".kube", "config"]))
    match r with
    | .error e => Run.abort (.goPanic e)
    | .ok config => pure config
  else newKubeConfig env vm

/-- The usage line; `os.Args[0]` is read. -/
def usage {κ : Type} (env : Env κ) : Run Unit :=
  match env.args with
  | [] => Run.abort (.goPanic "runtime error: index out of range [0] with length 0")
  | arg0 :: _ => Run.call (.stdout ("Usage: " ++ arg0 ++ " [command] ")) ()

/-- The loop `println(item.Name)` over the pods: one line each on standard
error. -/
def printAll : List String → Run Unit
  | [] => pure ()
  | name :: rest => do
    Run.call (.stderr name) ()
    printAll rest

/-- The use of the configuration (lines 253 to 267). -/
def listPodNames {κ : Type} (env : Env κ) (config : κ) : Run Unit := do
  let err ← Run.call .newForConfig (env.newForConfig config)
  match err with
  | some e => Run.abort (.goPanic e)
  | none =>
    let r ← Run.call .listPods (env.listPods config)
    match r with
    | .error e => Run.abort (.goPanic e)
    | .ok names => printAll names

/-- The `start` case of `main`. -/
def start {κ : Type} (env : Env κ) : Run Unit := do
  let vm ← getVMInfo env.md
  let config ← getKubeConfig env vm
  listPodNames env config

def main {κ : Type} (env : Env κ) : Run Unit :=
  if env.args.length < 2 then usage env
  else
    match env.args.get? 1 with
    | some "get-credential" => getCredentials env
    | some "start" => start env
    | _ => usage env

/-! ## Derived descriptions used in the statements -/

/-- The result of the label loop as a fold over the attribute names. -/
def labelsOf (md : Metadata) : List String → GoMap → GoMap
  | [], m => m
  | name :: rest, m =>
    if hasPrefix name "k8s-label-" then
      labelsOf md rest (m.set (sliceFrom name 10) (md.instanceAttributeValue name).val)
    else labelsOf md rest m

/-- The seven lookups whose failure is fatal, in program order. -/
def requiredLookups (md : Metadata) : List Lookup :=
  [md.instanceName, md.hostname, md.internalIP, md.externalIP, md.projectID,
   md.instanceAttributeValue "k8s-cluster-name", md.instanceAttributeValue "k8s-cluster-zone"]

/-- The error of the first failing lookup of a list. -/
def firstError : List Lookup → Option String
  | [] => none
  | .fail e :: _ => some e
  | .ok _ :: rest => firstError rest

/-- The conventional path of the local configuration file. -/
def localConfigPath {κ : Type} (env : Env κ) : String := env.join [env.home, ".kube", "config"]

/-- What `getKubeConfig` does when the local file is there. -/
def loadLocalConfig {κ : Type} (env : Env κ) : Run κ :=
  ⟨[.stat (localConfigPath env), .buildConfigFromFlags (localConfigPath env)],
    match env.buildConfigFromFlags (localConfigPath env) with
    | .ok config => .ok config
    | .error e => .error (.goPanic e)⟩

/-- The identity that the reader returns when nothing fatal happens. -/
def identityOf (md : Metadata) (attrs : List String) : vmInfo :=
  { InstanceName := md.instanceName.val, Hostname := md.hostname.val,
    InternalIP := md.internalIP.val, ExternalIP := md.externalIP.val,
    ProjectID := md.projectID.val,
    ClusterName := (md.instanceAttributeValue "k8s-cluster-name").val,
    ClusterZone := (md.instanceAttributeValue "k8s-cluster-zone").val,
    VMLabels := labelsOf md attrs [],
    KsaName := (md.instanceAttributeValue "k8s-sa-name").val,
    KsaToken := (md.instanceAttributeValue "k8s-sa-token").val }

/-- Days before the first of a month in a year without leap day. -/
def daysBeforeMonth (m : Int) : Int :=
  if m = 1 then 0 else if m = 2 then 31 else if m = 3 then 59 else if m = 4 then 90
  else if m = 5 then 120 else if m = 6 then 151 else if m = 7 then 181 else if m = 8 then 212
  else if m = 9 then 243 else if m = 10 then 273 else if m = 11 then 304 else 334

/-- The day number, counted from 1970-01-01, of a date of the proleptic
Gregorian calendar. -/
def daysFromCivil (y m d : Int) : Int :=
  365 * (y - 1) + (y - 1) / 4 - (y - 1) / 100 + (y - 1) / 400 + daysBeforeMonth m +
    (if isLeap y = true ∧ m > 2 then 1 else 0) + (d - 1) - 719162

/-- The instant an RFC 3339 timestamp with these fields denotes, in seconds
since the Unix epoch. -/
def Civil.toUnix (c : Civil) : Int :=
  daysFromCivil c.year c.month c.day * 86400 + c.hour * 3600 + c.minute * 60 + c.second - c.zone

/-- The static template with its five values filled in. -/
def staticDocument (ca endpoint name ksaName ksaToken : String) : String :=
  "\n      apiVersion: v1\n      clusters:\n      - cluster:\n          certificate-authority-data: " ++ ca ++
  "\n          server: https://" ++ endpoint ++
  "\n        name: " ++ name ++
  "\n      contexts:\n      - context:\n          cluster: " ++ name ++
  "\n          user: " ++ ksaName ++
  "\n        name: " ++ name ++
  "\n      current-context: " ++ name ++
  "\n      kind: Config\n      preferences: \x7b\x7d\n      users:\n      - name: " ++ ksaName ++
  "\n        user:\n          token: " ++ ksaToken

/-- The fixed end of the dynamic document, after the command path. -/
def dynamicTail : String :=
  "\n        expiry-key: \x27\x7b.token_expiry\x7d\x27\n        token-key: \x27\x7b.access_token\x7d\x27\n      name: gcp"

/-- The dynamic document up to the name of its user entry. -/
def dynamicHead (ca endpoint name : String) : String :=
  "\napiVersion: v1\nclusters:\n- cluster:\n    certificate-authority-data: " ++ ca ++
  "\n    server: https://" ++ endpoint ++
  "\n  name: " ++ name ++
  "\ncontexts:\n- context:\n    cluster: " ++ name ++
  "\n    user: " ++ name ++
  "\n  name: " ++ name ++
  "\ncurrent-context: " ++ name ++
  "\nkind: Config\npreferences: \x7b\x7d\nusers:\n- name: " ++ name

/-- The dynamic template with its four values filled in. -/
def dynamicDocument (ca endpoint name path : String) : String :=
  dynamicHead ca endpoint name ++
  "\n  user:\n    auth-provider:\n      config:\n        cmd-args: get-credential\n        cmd-path: " ++
  path ++ dynamicTail

/-- Pieces glued with one separator character after each. -/
def joinSep : List (List Char × Char) → List Char → List Char
  | [], last => last
  | (x, s) :: rest, last => x ++ s :: joinSep rest last

/-- The lines of a text: the pieces between line feeds. -/
def splitLinesAux : List Char → List (List Char)
  | [] => [[]]
  | c :: cs =>
    if c = '\n' then [] :: splitLinesAux cs
    else
      match splitLinesAux cs with
      | [] => [[c]]
      | l :: ls => (c :: l) :: ls

/-- The lines of a document, as Go `strings.Split(s, "\n")` gives them. -/
def splitLines (s : String) : List String := (splitLinesAux s.data).map String.mk

/-- The lines of the static template with its five values filled in. -/
def staticLines (ca endpoint name ksaName ksaToken : String) : List String :=
  ["",
   "      apiVersion: v1",
   "      clusters:",
   "      - cluster:",
   "          certificate-authority-data: " ++ ca,
   "          server: https://" ++ endpoint,
   "        name: " ++ name,
   "      contexts:",
   "      - context:",
   "          cluster: " ++ name,
   "          user: " ++ ksaName,
   "        name: " ++ name,
   "      current-context: " ++ name,
   "      kind: Config",
   "      preferences: \x7b\x7d",
   "      users:",
   "      - name: " ++ ksaName,
   "        user:",
   "          token: " ++ ksaToken]

/-- The lines of the dynamic template with its four values filled in. -/
def dynamicLines (ca endpoint name path : String) : List String :=
  ["",
   "apiVersion: v1",
   "clusters:",
   "- cluster:",
   "    certificate-authority-data: " ++ ca,
   "    server: https://" ++ endpoint,
   "  name: " ++ name,
   "contexts:",
   "- context:",
   "    cluster: " ++ name,
   "    user: " ++ name,
   "  name: " ++ name,
   "current-context: " ++ name,
   "kind: Config",
   "preferences: \x7b\x7d",
   "users:",
   "- name: " ++ name,
   "  user:",
   "    auth-provider:",
   "      config:",
   "        cmd-args: get-credential",
   "        cmd-path: " ++ path,
   "        expiry-key: \x27\x7b.token_expiry\x7d\x27",
   "        token-key: \x27\x7b.access_token\x7d\x27",
   "      name: gcp"]

/-- Does the text hold a line feed? -/
def hasLineFeed (s : String) : Prop := '\n' ∈ s.data

instance (s : String) : Decidable (hasLineFeed s) := by
  unfold hasLineFeed; infer_instance

/-- How a parse result ends the synthesis. -/
def parseOutcome {κ : Type} (r : Except String κ) : Except Abort κ :=
  match r with
  | .ok config => .ok config
  | .error e => .error (.fatalf ("failed to create kubeconfig: " ++ e))

/-- The documents handed to `RESTConfigFromKubeConfig` during a run. -/
def parsedDocs : List Event → List String
  | [] => []
  | .restConfigFromKubeConfig doc :: rest => doc :: parsedDocs rest
  | _ :: rest => parsedDocs rest

/-! ## A reader for the block fragment of YAML that the templates use

This stands for the configuration parser of the round-trip property: block
mappings, block sequences of mappings, plain and single-quoted scalars and the
empty flow mapping.  A document outside the fragment is rejected. -/

/-- A YAML scalar as far as the templates need it: a string or the empty flow
mapping. -/
inductive Scalar where
  | str (s : String)
  | emptyMap
  deriving DecidableEq, Repr

/-- Characters the reader accepts in a plain scalar. -/
def plainChar (c : Char) : Bool :=
  c.isAlphanum || c = '-' || c = '.' || c = '_' || c = '/' || c = '=' || c = '+' || c = ':'

/-- Words that YAML 1.1 resolves to a boolean or to null, in lower case. -/
def reservedWords : List String :=
  ["y", "n", "yes", "no", "on", "off", "true", "false", "null"]

/-- A plain scalar that every YAML parser reads back as the same string: it
starts with a letter or a slash, holds only letters, digits and `- . _ / = + :`,
does not end in a colon, and is not a reserved word in any casing. -/
def plainScalar (s : String) : Bool :=
  (match s.data with
    | [] => false
    | c :: _ => c.isAlpha || c = '/') &&
  s.data.all plainChar &&
  s.data.getLast? != some ':' &&
  reservedWords.all (fun w => w.data != s.data.map Char.toLower)

/-- The single quote. -/
def quoteChar : Char := Char.ofNat 39

/-- The scalar a value text stands for; `none` when it is outside the
fragment. -/
def scalarOf (v : String) : Option Scalar :=
  if plainScalar v = true then some (.str v)
  else if v = "\x7b\x7d" then some .emptyMap
  else
    match v.data with
    | [] => none
    | c :: rest =>
      if c = quoteChar ∧ rest.getLast? = some quoteChar ∧
          rest.dropLast.all (fun d => d != quoteChar && d != '\n') = true then
        some (.str ⟨rest.dropLast⟩)
      else none

/-- One line of a block mapping. -/
structure Tok where
  indent : Nat
  dash : Bool
  key : String
  value : Option Scalar
  deriving DecidableEq, Repr

/-- Characters the reader accepts in a key. -/
def keyChar (c : Char) : Bool := c.isAlphanum || c = '-'

/-- The key and the value text of `key:` or `key: value`. -/
def splitEntry : List Char → Option (List Char × Option (List Char))
  | [] => none
  | c :: cs =>
    if c = ':' then
      match cs with
      | [] => some ([], none)
      | d :: v => if d = ' ' then some ([], some v) else none
    else if keyChar c = true then (splitEntry cs).map (fun kv => (c :: kv.1, kv.2))
    else none

/-- The entry that starts at column `indent` (after the dash, if any). -/
def tokEntry (indent : Nat) (dash : Bool) (cs : List Char) : Option Tok :=
  match splitEntry cs with
  | none => none
  | some (k, v) =>
    if k = [] then none
    else
      match v with
      | none => some ⟨indent, dash, ⟨k⟩, none⟩
      | some v => (scalarOf ⟨v⟩).map (fun s => ⟨indent, dash, ⟨k⟩, some s⟩)

/-- One line: `none` is a line outside the fragment, `some none` a blank line. -/
def tokLine : Nat → List Char → Option (Option Tok)
  | _, [] => some none
  | n, c :: cs =>
    if c = ' ' then tokLine (n + 1) cs
    else if c = '-' then
      match cs with
      | [] => none
      | d :: rest => if d = ' ' then (tokEntry n true rest).map some else none
    else (tokEntry n false (c :: cs)).map some

/-- The entries of the lines of a document. -/
def tokensOf : List String → Option (List Tok)
  | [] => some []
  | l :: rest =>
    match tokLine 0 l.data with
    | none => none
    | some none => tokensOf rest
    | some (some t) => (tokensOf rest).map (fun ts => t :: ts)

/-- A step of a path into the document: a mapping key or a sequence index. -/
inductive Seg where
  | key (k : String)
  | idx (i : Nat)
  deriving DecidableEq, Repr

/-- The sequence item that a dash in column `n` opens. -/
def enterItem (n : Nat) (stack : List (Nat × Seg)) : List (Nat × Seg) :=
  match stack.dropWhile (fun f => decide (n < f.1)) with
  | (m, .idx i) :: rest =>
    if m = n then (n, .idx (i + 1)) :: rest else (n, .idx 0) :: (m, .idx i) :: rest
  | st => (n, .idx 0) :: st

/-- Reading one entry: the open nodes with their columns, innermost first,
and the scalars found so far with their paths. -/
def flattenStep (state : List (Nat × Seg) × List (List Seg × Scalar)) (t : Tok) :
    List (Nat × Seg) × List (List Seg × Scalar) :=
  let stack :=
    if t.dash = true then enterItem t.indent state.1
    else state.1.dropWhile (fun f => decide (t.indent ≤ f.1))
  let col := if t.dash = true then t.indent + 2 else t.indent
  match t.value with
  | some s => (stack, state.2 ++ [((stack.map Prod.snd).reverse ++ [.key t.key], s)])
  | none => ((col, .key t.key) :: stack, state.2)

/-- The string at a path: the empty string when the path is absent. -/
def textAt (out : List (List Seg × Scalar)) (path : List Seg) : Option String :=
  match out.find? (fun e => decide (e.1 = path)) with
  | none => some ""
  | some (_, .str s) => some s
  | some (_, .emptyMap) => none

/-- The number of items of the sequence under a top-level key. -/
def itemCount (out : List (List Seg × Scalar)) (k : String) : Nat :=
  out.foldl (fun acc e =>
    match e.1 with
    | .key k' :: .idx i :: _ => if k' = k then max acc (i + 1) else acc
    | _ => acc) 0

/-- The results of `f 0`, ..., `f (n - 1)`. -/
def collect {α : Type} (f : Nat → Option α) : Nat → Option (List α)
  | 0 => some []
  | n + 1 =>
    match collect f n, f n with
    | some xs, some x => some (xs ++ [x])
    | _, _ => none

/-- A context entry of a client configuration. -/
structure NamedContext where
  name : String
  cluster : String
  user : String
  deriving DecidableEq, Repr

/-- The names in a client configuration. -/
structure KubeNames where
  clusters : List String
  contexts : List NamedContext
  users : List String
  currentContext : String
  deriving DecidableEq, Repr

/-- The names at the paths of a client configuration. -/
def namesOf (out : List (List Seg × Scalar)) : Option KubeNames :=
  match collect (fun i => textAt out [.key "clusters", .idx i, .key "name"])
      (itemCount out "clusters"),
    collect (fun i =>
      match textAt out [.key "contexts", .idx i, .key "name"],
        textAt out [.key "contexts", .idx i, .key "context", .key "cluster"],
        textAt out [.key "contexts", .idx i, .key "context", .key "user"] with
      | some n, some c, some u => some (NamedContext.mk n c u)
      | _, _, _ => none) (itemCount out "contexts"),
    collect (fun i => textAt out [.key "users", .idx i, .key "name"]) (itemCount out "users"),
    textAt out [.key "current-context"] with
  | some clusters, some contexts, some users, some current =>
    some ⟨clusters, contexts, users, current⟩
  | _, _, _, _ => none

/-- The scalars of a document with their paths. -/
def yamlPaths (doc : String) : Option (List (List Seg × Scalar)) :=
  (tokensOf (splitLines doc)).map (fun toks => (toks.foldl flattenStep ([], [])).2)

/-- Reading a client configuration document: `none` when the document is
outside the fragment or a path occurs twice. -/
def readKubeConfig (doc : String) : Option KubeNames :=
  match yamlPaths doc with
  | none => none
  | some out => if (out.map Prod.fst).Nodup then namesOf out else none

/-- The entries of the static document. -/
def staticToks (ca ep n k t : String) : List Tok :=
  [⟨6, false, "apiVersion", some (.str "v1")⟩,
   ⟨6, false, "clusters", none⟩,
   ⟨6, true, "cluster", none⟩,
   ⟨10, false, "certificate-authority-data", some (.str ca)⟩,
   ⟨10, false, "server", some (.str ("https://" ++ ep))⟩,
   ⟨8, false, "name", some (.str n)⟩,
   ⟨6, false, "contexts", none⟩,
   ⟨6, true, "context", none⟩,
   ⟨10, false, "cluster", some (.str n)⟩,
   ⟨10, false, "user", some (.str k)⟩,
   ⟨8, false, "name", some (.str n)⟩,
   ⟨6, false, "current-context", some (.str n)⟩,
   ⟨6, false, "kind", some (.str "Config")⟩,
   ⟨6, false, "preferences", some (.emptyMap)⟩,
   ⟨6, false, "users", none⟩,
   ⟨6, true, "name", some (.str k)⟩,
   ⟨8, false, "user", none⟩,
   ⟨10, false, "token", some (.str t)⟩]

/-- The entries of the dynamic document. -/
def dynamicToks (ca ep n p : String) : List Tok :=
  [⟨0, false, "apiVersion", some (.str "v1")⟩,
   ⟨0, false, "clusters", none⟩,
   ⟨0, true, "cluster", none⟩,
   ⟨4, false, "certificate-authority-data", some (.str ca)⟩,
   ⟨4, false, "server", some (.str ("https://" ++ ep))⟩,
   ⟨2, false, "name", some (.str n)⟩,
   ⟨0, false, "contexts", none⟩,
   ⟨0, true, "context", none⟩,
   ⟨4, false, "cluster", some (.str n)⟩,
   ⟨4, false, "user", some (.str n)⟩,
   ⟨2, false, "name", some (.str n)⟩,
   ⟨0, false, "current-context", some (.str n)⟩,
   ⟨0, false, "kind", some (.str "Config")⟩,
   ⟨0, false, "preferences", some (.emptyMap)⟩,
   ⟨0, false, "users", none⟩,
   ⟨0, true, "name", some (.str n)⟩,
   ⟨2, false, "user", none⟩,
   ⟨4, false, "auth-provider", none⟩,
   ⟨6, false, "config", none⟩,
   ⟨8, false, "cmd-args", some (.str "get-credential")⟩,
   ⟨8, false, "cmd-path", some (.str p)⟩,
   ⟨8, false, "expiry-key", some (.str "\x7b.token_expiry\x7d")⟩,
   ⟨8, false, "token-key", some (.str "\x7b.access_token\x7d")⟩,
   ⟨6, false, "name", some (.str "gcp")⟩]

/-- The scalars of the static document with their paths. -/
def staticPaths (ca ep n k t : String) : List (List Seg × Scalar) :=
  [([.key "apiVersion"], .str "v1"),
   ([.key "clusters", .idx 0, .key "cluster", .key "certificate-authority-data"], .str ca),
   ([.key "clusters", .idx 0, .key "cluster", .key "server"], .str ("https://" ++ ep)),
   ([.key "clusters", .idx 0, .key "name"], .str n),
   ([.key "contexts", .idx 0, .key "context", .key "cluster"], .str n),
   ([.key "contexts", .idx 0, .key "context", .key "user"], .str k),
   ([.key "contexts", .idx 0, .key "name"], .str n),
   ([.key "current-context"], .str n),
   ([.key "kind"], .str "Config"),
   ([.key "preferences"], .emptyMap),
   ([.key "users", .idx 0, .key "name"], .str k),
   ([.key "users", .idx 0, .key "user", .key "token"], .str t)]

/-- The scalars of the dynamic document with their paths. -/
def dynamicPaths (ca ep n p : String) : List (List Seg × Scalar) :=
  [([.key "apiVersion"], .str "v1"),
   ([.key "clusters", .idx 0, .key "cluster", .key "certificate-authority-data"], .str ca),
   ([.key "clusters", .idx 0, .key "cluster", .key "server"], .str ("https://" ++ ep)),
   ([.key "clusters", .idx 0, .key "name"], .str n),
   ([.key "contexts", .idx 0, .key "context", .key "cluster"], .str n),
   ([.key "contexts", .idx 0, .key "context", .key "user"], .str n),
   ([.key "contexts", .idx 0, .key "name"], .str n),
   ([.key "current-context"], .str n),
   ([.key "kind"], .str "Config"),
   ([.key "preferences"], .emptyMap),
   ([.key "users", .idx 0, .key "name"], .str n),
   ([.key "users", .idx 0, .key "user", .key "auth-provider", .key "config", .key "cmd-args"],
     .str "get-credential"),
   ([.key "users", .idx 0, .key "user", .key "auth-provider", .key "config", .key "cmd-path"],
     .str p),
   ([.key "users", .idx 0, .key "user", .key "auth-provider", .key "config", .key "expiry-key"],
     .str "\x7b.token_expiry\x7d"),
   ([.key "users", .idx 0, .key "user", .key "auth-provider", .key "config", .key "token-key"],
     .str "\x7b.access_token\x7d"),
   ([.key "users", .idx 0, .key "user", .key "auth-provider", .key "name"], .str "gcp")]

/-! ## Sample inputs -/

/-- A metadata service with two custom attributes besides the cluster keys. -/
def sampleMetadata : Metadata :=
  { instanceName := .ok "vm-1"
    hostname := .ok "vm-1.c.proj.internal"
    internalIP := .ok "10.0.0.2"
    externalIP := .ok "34.1.2.3"
    projectID := .ok "proj"
    instanceAttributeValue := fun k =>
      if k = "k8s-cluster-name" then .ok "cluster-1"
      else if k = "k8s-cluster-zone" then .ok "us-west1-a"
      else if k = "k8s-label-team" then .ok "infra"
      else if k = "other-attr" then .ok "x"
      else .fail "not defined"
    instanceAttributes := .ok ["k8s-label-team", "other-attr"]
    get := fun k =>
      if k = "instance/service-accounts/default/token" then .ok "grant" else .fail "not defined" }

/-- A metadata service without service account attributes and with one label
whose value cannot be read. -/
def sampleMetadataDegraded : Metadata :=
  { sampleMetadata with
    instanceAttributes := .ok ["k8s-label-team", "k8s-label-tier", "other-attr"] }

/-- A machine without local configuration file; the configuration type is
the text it was loaded from. -/
def sampleEnv : Env String :=
  { args := ["vmdaemon", "start"]
    md := sampleMetadata
    home := "/root"
    getwd := .ok "/opt"
    join := fun parts => String.intercalate "/" parts
    stat := fun _ => some .notExist
    buildConfigFromFlags := fun path => .ok path
    restConfigFromKubeConfig := fun doc => .ok doc
    newHTTPClient := none
    gkeNew := none
    clusterGet := fun _ _ name => .ok { MasterAuth := some ⟨"Q0E="⟩, Endpoint := "10.1.1.1", Name := name }
    unmarshal := fun _ => .ok { AccessToken := "ya29.a0", ExpiresIn := 3599, TokenType := "Bearer" }
    now := ⟨1700000000123456789, 3600⟩
    newForConfig := fun _ => none
    listPods := fun _ => .ok ["pod-a", "pod-b"] }

/-- The identity read on the sample machine. -/
def sampleVM : vmInfo :=
  { InstanceName := "vm-1", Hostname := "vm-1.c.proj.internal", InternalIP := "10.0.0.2",
    ExternalIP := "34.1.2.3", ProjectID := "proj", ClusterName := "cluster-1",
    ClusterZone := "us-west1-a", VMLabels := [("team", "infra")], KsaName := "", KsaToken := "" }

/-- The sample identity with a provisioned service account. -/
def sampleVMStatic : vmInfo := { sampleVM with KsaName := "sa", KsaToken := "abc" }

/-- The sample identity whose token attribute holds three lines. -/
def sampleVMInjected : vmInfo :=
  { sampleVM with
    KsaName := "sa", KsaToken := "abc\n          auth-provider:\n            name: gcp" }

/-- The sample machine asked for a credential at a whole second, with a
grant of lifetime zero. -/
def sampleEnvZeroGrant : Env String :=
  { sampleEnv with
    args := ["vmdaemon", "get-credential"]
    unmarshal := fun _ => .ok { AccessToken := "ya29.a0", ExpiresIn := 0, TokenType := "Bearer" }
    now := ⟨1700000000000000000, 3600⟩ }

/-- The sample machine asked for a credential half a second after a whole
second, with a grant of one second. -/
def sampleEnvHalfSecond : Env String :=
  { sampleEnv with
    args := ["vmdaemon", "get-credential"]
    unmarshal := fun _ => .ok { AccessToken := "ya29.a0", ExpiresIn := 1, TokenType := "Bearer" }
    now := ⟨1700000000500000000, 3600⟩ }

/-- The sample machine asked for a credential with a grant of 9223372037
seconds. -/
def sampleEnvLongGrant : Env String :=
  { sampleEnv with
    args := ["vmdaemon", "get-credential"]
    unmarshal := fun _ =>
      .ok { AccessToken := "ya29.a0", ExpiresIn := 9223372037, TokenType := "Bearer" }
    now := ⟨1700000000000000000, 3600⟩ }

/-- A service account name of five lines that repeats the template lines
between the two places where the static template puts the name. -/
def twinName : String :=
  "a" ++ "\n        name: " ++ "c" ++ "\n      current-context: " ++ "c" ++
  "\n      kind: Config\n      preferences: \x7b\x7d\n      users:\n      - name: " ++ "a" ++
  "\n        user:\n          token: "

/-- A token that repeats the same template lines around `twinName`. -/
def twinToken : String :=
  "\n        name: " ++ "c" ++ "\n      current-context: " ++ "c" ++
  "\n      kind: Config\n      preferences: \x7b\x7d\n      users:\n      - name: " ++ twinName ++
  "\n        user:\n          token: " ++ "b"

/-- Service account `a` with the long token. -/
def sampleVMTwinA : vmInfo :=
  { sampleVM with ClusterName := "c", KsaName := "a", KsaToken := twinToken }

/-- Service account `twinName` with token `b`. -/
def sampleVMTwinB : vmInfo :=
  { sampleVM with ClusterName := "c", KsaName := twinName, KsaToken := "b" }

/-- The same machine with a local configuration file. -/
def sampleEnvLocal : Env String := { sampleEnv with stat := fun _ => none }

/-- The machine with local configuration file whose instance name cannot be read. -/
def sampleEnvLocalNoName : Env String :=
  { sampleEnvLocal with md := { sampleMetadata with instanceName := .fail "not defined" } }

set_option maxRecDepth 100000

/-! ## Lemmas on runs -/

theorem Run.bind_eq {α β : Type} (x : Run α) (f : α → Run β) : x >>= f = x.andThen f := rfl

theorem Run.pure_eq {α : Type} (a : α) : (pure a : Run α) = ⟨[], .ok a⟩ := rfl

theorem Run.andThen_ok {α β : Type} (t : List Event) (a : α) (f : α → Run β) :
    Run.andThen ⟨t, .ok a⟩ f = ⟨t ++ (f a).trace, (f a).out⟩ := rfl

theorem Run.andThen_error {α β : Type} (t : List Event) (e : Abort) (f : α → Run β) :
    Run.andThen ⟨t, .error e⟩ f = ⟨t, .error e⟩ := rfl

theorem Run.andThen_out_ok {α β : Type} (x : Run α) (f : α → Run β) (a : α)
    (h : x.out = .ok a) : (x.andThen f).out = (f a).out := by
  unfold Run.andThen; rw [h]

theorem Run.andThen_trace_ok {α β : Type} (x : Run α) (f : α → Run β) (a : α)
    (h : x.out = .ok a) : (x.andThen f).trace = x.trace ++ (f a).trace := by
  unfold Run.andThen; rw [h]

theorem Run.andThen_out_error {α β : Type} (x : Run α) (f : α → Run β) (e : Abort)
    (h : x.out = .error e) : (x.andThen f).out = .error e := by
  unfold Run.andThen; rw [h]

theorem Run.andThen_trace_error {α β : Type} (x : Run α) (f : α → Run β) (e : Abort)
    (h : x.out = .error e) : (x.andThen f).trace = x.trace := by
  unfold Run.andThen; rw [h]

/-- A property of all events carries over sequencing. -/
theorem Run.andThen_trace_all {α β : Type} (P : Event → Prop) (x : Run α) (f : α → Run β)
    (hx : ∀ ev ∈ x.trace, P ev) (hf : ∀ a, ∀ ev ∈ (f a).trace, P ev) :
    ∀ ev ∈ (x.andThen f).trace, P ev := by
  intro ev hev
  unfold Run.andThen at hev
  cases hout : x.out with
  | error e =>
    rw [hout] at hev
    exact hx ev hev
  | ok a =>
    rw [hout] at hev
    rcases List.mem_append.mp hev with h | h
    · exact hx ev h
    · exact hf a ev h

theorem must_ok (ev : Event) (v : String) : must ev (.ok v) = ⟨[ev], .ok v⟩ := rfl

theorem must_fail (ev : Event) (e : String) :
    must ev (.fail e) = ⟨[ev], .error (.goPanic e)⟩ := rfl

theorem must_trace (ev : Event) (r : Lookup) : (must ev r).trace = [ev] := by
  cases r <;> rfl

theorem orEmpty_eq (ev : Event) (r : Lookup) : orEmpty ev r = ⟨[ev], .ok r.val⟩ := by
  cases r <;> rfl

theorem must_andThen_all {β : Type} (P : Event → Prop) (ev : Event) (r : Lookup)
    (f : String → Run β) (hev : P ev) (hf : ∀ a, ∀ e ∈ (f a).trace, P e) :
    ∀ e ∈ ((must ev r).andThen f).trace, P e := by
  apply Run.andThen_trace_all P _ _ _ hf
  intro e he
  rw [must_trace] at he
  rw [List.mem_singleton.mp he]
  exact hev

theorem orEmpty_andThen_all {β : Type} (P : Event → Prop) (ev : Event) (r : Lookup)
    (f : String → Run β) (hev : P ev) (hf : ∀ a, ∀ e ∈ (f a).trace, P e) :
    ∀ e ∈ ((orEmpty ev r).andThen f).trace, P e := by
  apply Run.andThen_trace_all P _ _ _ hf
  intro e he
  rw [orEmpty_eq] at he
  rw [List.mem_singleton.mp he]
  exact hev

theorem call_andThen_all {α β : Type} (P : Event → Prop) (ev : Event) (r : α)
    (f : α → Run β) (hev : P ev) (hf : ∀ a, ∀ e ∈ (f a).trace, P e) :
    ∀ e ∈ ((Run.call ev r).andThen f).trace, P e := by
  apply Run.andThen_trace_all P _ _ _ hf
  intro e he
  rw [List.mem_singleton.mp he]
  exact hev

/-- The label loop only talks to the metadata service and the log. -/
theorem labelLoop_trace (md : Metadata) (attrs : List String) (m : GoMap) :
    ∀ ev ∈ (labelLoop md attrs m).trace, ev.isReader = true := by
  induction attrs generalizing m with
  | nil => intro ev hev; simp [labelLoop, Run.pure_eq] at hev
  | cons name rest ih =>
    unfold labelLoop
    split
    · simp only [Run.bind_eq]
      refine call_andThen_all (fun ev => ev.isReader = true) _ _ _ ?_ ?_
      · rfl
      intro r
      cases r.err with
      | none => exact ih _
      | some e =>
        refine call_andThen_all (fun ev => ev.isReader = true) _ _ _ ?_ (fun _ => ih _)
        rfl
    · exact ih m

/-- The identity reader only talks to the metadata service and the log. -/
theorem getVMInfo_trace (md : Metadata) :
    ∀ ev ∈ (getVMInfo md).trace, ev.isReader = true := by
  unfold getVMInfo
  simp only [Run.bind_eq]
  iterate 7 (refine must_andThen_all (fun ev => ev.isReader = true) _ _ _ ?_ ?_; rfl; intro _)
  iterate 2 (refine orEmpty_andThen_all (fun ev => ev.isReader = true) _ _ _ ?_ ?_; rfl; intro _)
  refine call_andThen_all (fun ev => ev.isReader = true) _ _ _ ?_ ?_
  · rfl
  intro attrs
  cases attrs with
  | error e => intro ev hev; simp [Run.abort] at hev
  | ok attrs =>
    apply Run.andThen_trace_all _ _ _ (labelLoop_trace md attrs [])
    intro labels ev hev
    simp [Run.pure_eq] at hev

/-- The label loop never aborts. -/
theorem labelLoop_out (md : Metadata) (attrs : List String) (m : GoMap) :
    (labelLoop md attrs m).out = .ok (labelsOf md attrs m) := by
  induction attrs generalizing m with
  | nil => rfl
  | cons name rest ih =>
    unfold labelLoop labelsOf
    split
    · cases hr : md.instanceAttributeValue name <;>
        simp only [Run.bind_eq, Run.call, Run.andThen_ok, Lookup.err, ih]
    · exact ih m

theorem getVMInfo_abort (md : Metadata) (e : String)
    (h : firstError (requiredLookups md) = some e) :
    (getVMInfo md).out = .error (.goPanic e) ∧
      ∀ ev ∈ (getVMInfo md).trace, ev.isMetadata = true := by
  unfold getVMInfo
  simp only [requiredLookups] at h
  cases h1 : md.instanceName with
  | fail e0 =>
    simp only [h1, firstError, Option.some.injEq] at h
    subst h
    simp [firstError, must_ok, must_fail, Run.bind_eq, Run.andThen_ok, Run.andThen_error, Event.isMetadata]
  | ok v1 =>
  simp only [h1, firstError] at h
  cases h2 : md.hostname with
  | fail e0 =>
    simp only [h2, firstError, Option.some.injEq] at h
    subst h
    simp [firstError, must_ok, must_fail, Run.bind_eq, Run.andThen_ok, Run.andThen_error, Event.isMetadata]
  | ok v2 =>
  simp only [h2, firstError] at h
  cases h3 : md.internalIP with
  | fail e0 =>
    simp only [h3, firstError, Option.some.injEq] at h
    subst h
    simp [firstError, must_ok, must_fail, Run.bind_eq, Run.andThen_ok, Run.andThen_error, Event.isMetadata]
  | ok v3 =>
  simp only [h3, firstError] at h
  cases h4 : md.externalIP with
  | fail e0 =>
    simp only [h4, firstError, Option.some.injEq] at h
    subst h
    simp [firstError, must_ok, must_fail, Run.bind_eq, Run.andThen_ok, Run.andThen_error, Event.isMetadata]
  | ok v4 =>
  simp only [h4, firstError] at h
  cases h5 : md.projectID with
  | fail e0 =>
    simp only [h5, firstError, Option.some.injEq] at h
    subst h
    simp [firstError, must_ok, must_fail, Run.bind_eq, Run.andThen_ok, Run.andThen_error, Event.isMetadata]
  | ok v5 =>
  simp only [h5, firstError] at h
  cases h6 : md.instanceAttributeValue "k8s-cluster-name" with
  | fail e0 =>
    simp only [h6, firstError, Option.some.injEq] at h
    subst h
    simp [firstError, must_ok, must_fail, Run.bind_eq, Run.andThen_ok, Run.andThen_error, Event.isMetadata]
  | ok v6 =>
  simp only [h6, firstError] at h
  cases h7 : md.instanceAttributeValue "k8s-cluster-zone" with
  | fail e0 =>
    simp only [h7, firstError, Option.some.injEq] at h
    subst h
    simp [firstError, must_ok, must_fail, Run.bind_eq, Run.andThen_ok, Run.andThen_error, Event.isMetadata]
  | ok v7 =>
  simp only [h7, firstError] at h
  exact absurd h (by simp)


theorem firstError_none_iff (ls : List Lookup) :
    firstError ls = none ↔ ∀ l ∈ ls, l.err = none := by
  induction ls with
  | nil => simp [firstError]
  | cons l rest ih =>
    cases l with
    | ok v => simp [firstError, ih, Lookup.err]
    | fail e => simp [firstError, Lookup.err]

/-- The first error is the error of a lookup of the list, and every lookup
before it succeeded. -/
theorem firstError_some (ls : List Lookup) (e : String) (h : firstError ls = some e) :
    ∃ pre post, ls = pre ++ Lookup.fail e :: post ∧ ∀ l ∈ pre, l.err = none := by
  induction ls with
  | nil => simp [firstError] at h
  | cons l rest ih =>
    cases l with
    | ok v =>
      obtain ⟨pre, post, hls, hpre⟩ := ih (by simpa [firstError] using h)
      refine ⟨Lookup.ok v :: pre, post, by simp [hls], ?_⟩
      intro l hl
      rcases List.mem_cons.mp hl with h1 | h1
      · subst h1; rfl
      · exact hpre l h1
    | fail e0 =>
      simp only [firstError, Option.some.injEq] at h
      subst h
      exact ⟨[], rest, rfl, by simp⟩

theorem getVMInfo_ok (md : Metadata) (attrs : List String)
    (h : firstError (requiredLookups md) = none) (ha : md.instanceAttributes = .ok attrs) :
    (getVMInfo md).out = .ok (identityOf md attrs) := by
  have h' := (firstError_none_iff _).mp h
  simp only [requiredLookups, List.mem_cons, List.mem_singleton, List.not_mem_nil, or_false,
    forall_eq_or_imp, forall_eq] at h'
  obtain ⟨h1, h2, h3, h4, h5, h6, h7⟩ := h'
  unfold getVMInfo identityOf
  cases g1 : md.instanceName with
  | fail e0 => rw [g1] at h1; exact absurd h1 (by simp [Lookup.err])
  | ok v1 =>
  cases g2 : md.hostname with
  | fail e0 => rw [g2] at h2; exact absurd h2 (by simp [Lookup.err])
  | ok v2 =>
  cases g3 : md.internalIP with
  | fail e0 => rw [g3] at h3; exact absurd h3 (by simp [Lookup.err])
  | ok v3 =>
  cases g4 : md.externalIP with
  | fail e0 => rw [g4] at h4; exact absurd h4 (by simp [Lookup.err])
  | ok v4 =>
  cases g5 : md.projectID with
  | fail e0 => rw [g5] at h5; exact absurd h5 (by simp [Lookup.err])
  | ok v5 =>
  cases g6 : md.instanceAttributeValue "k8s-cluster-name" with
  | fail e0 => rw [g6] at h6; exact absurd h6 (by simp [Lookup.err])
  | ok v6 =>
  cases g7 : md.instanceAttributeValue "k8s-cluster-zone" with
  | fail e0 => rw [g7] at h7; exact absurd h7 (by simp [Lookup.err])
  | ok v7 =>
  simp only [must_ok, orEmpty_eq, Run.bind_eq, Run.andThen_ok, Run.call, ha, Run.pure_eq,
    Lookup.val]
  rw [Run.andThen_out_ok _ _ _ (labelLoop_out md attrs [])]

/-! ## Bootstrap driver: lemmas -/

theorem main_start {κ : Type} (env : Env κ) (hstart : env.args.get? 1 = some "start") :
    main env = start env := by
  have hlen : ¬ env.args.length < 2 := by
    intro h
    have := List.get?_eq_none.mpr (Nat.lt_succ_iff.mp h)
    rw [this] at hstart
    exact absurd hstart (by simp)
  unfold main
  rw [if_neg hlen, hstart]
  rfl

theorem getKubeConfig_local {κ : Type} (env : Env κ) (vm : vmInfo) (hhome : env.home ≠ "")
    (hfile : env.stat (localConfigPath env) = none) :
    getKubeConfig env vm = loadLocalConfig env := by
  unfold getKubeConfig loadLocalConfig localConfigPath at *
  simp only [if_pos hhome, hfile, Run.bind_eq, Run.call, Run.andThen_ok, Run.pure_eq]
  cases env.buildConfigFromFlags (env.join [env.home, ".kube", "config"]) <;> rfl

theorem getKubeConfig_noHome {κ : Type} (env : Env κ) (vm : vmInfo) (hhome : env.home = "") :
    getKubeConfig env vm = newKubeConfig env vm := by
  unfold getKubeConfig
  simp only [hhome, ne_eq, not_true_eq_false, if_false, Run.bind_eq, Run.pure_eq, Run.andThen_ok]
  rfl

theorem getKubeConfig_missing {κ : Type} (env : Env κ) (vm : vmInfo) (hhome : env.home ≠ "")
    (hfile : env.stat (localConfigPath env) = some .notExist) :
    getKubeConfig env vm =
      ⟨.stat (localConfigPath env) :: (newKubeConfig env vm).trace, (newKubeConfig env vm).out⟩ := by
  unfold getKubeConfig localConfigPath at *
  simp only [if_pos hhome, hfile, Run.bind_eq, Run.call, Run.andThen_ok, Run.pure_eq]
  rfl

theorem exists_firstError (ls : List Lookup) (h : ∃ l ∈ ls, l.err ≠ none) :
    ∃ e, firstError ls = some e := by
  cases hf : firstError ls with
  | some e => exact ⟨e, rfl⟩
  | none =>
    obtain ⟨l, hl, hne⟩ := h
    exact absurd ((firstError_none_iff ls).mp hf l hl) hne

/-- C6: in start mode, when the lookup of a required field fails, the run
stops with the error of the first failing lookup, and the trace holds no call
of the cluster management API. -/
theorem required_lookup_failure_stops_before_cluster_get {κ : Type} (env : Env κ)
    (hstart : env.args.get? 1 = some "start")
    (hfail : ∃ l ∈ requiredLookups env.md, l.err ≠ none) :
    ∃ e, Lookup.fail e ∈ requiredLookups env.md ∧
      firstError (requiredLookups env.md) = some e ∧
      (main env).out = .error (.goPanic e) ∧
      ∀ ev ∈ (main env).trace, ev.isClusterGet = false := by
  obtain ⟨e, he⟩ := exists_firstError _ hfail
  obtain ⟨pre, post, hls, -⟩ := firstError_some _ e he
  obtain ⟨hout, htrace⟩ := getVMInfo_abort env.md e he
  refine ⟨e, by rw [hls]; simp, he, ?_, ?_⟩
  · rw [main_start env hstart]
    unfold start
    rw [Run.bind_eq, Run.andThen_out_error _ _ _ hout]
  · rw [main_start env hstart]
    unfold start
    rw [Run.bind_eq, Run.andThen_trace_error _ _ _ hout]
    intro ev hev
    have := htrace ev hev
    cases ev <;> simp_all [Event.isMetadata, Event.isClusterGet]

theorem required_lookup_failure_witness :
    (∃ e, Lookup.fail e ∈ requiredLookups sampleEnvLocalNoName.md ∧
      firstError (requiredLookups sampleEnvLocalNoName.md) = some e ∧
      (main sampleEnvLocalNoName).out = .error (.goPanic e) ∧
      ∀ ev ∈ (main sampleEnvLocalNoName).trace, ev.isClusterGet = false) :=
  required_lookup_failure_stops_before_cluster_get sampleEnvLocalNoName (by decide)
    ⟨.fail "not defined", by decide, by decide⟩

/-- C7: with a home directory and the local file there, `getKubeConfig` is
the load of that file and nothing else (one `os.Stat`, one
`BuildConfigFromFlags`, no synthesis, no cluster management API call);
without home directory, or with the file missing, it is `newKubeConfig`. -/
theorem local_file_verbatim_else_discovery {κ : Type} (env : Env κ) (vm : vmInfo) :
    (env.home ≠ "" → env.stat (localConfigPath env) = none →
      getKubeConfig env vm =
        ⟨[.stat (localConfigPath env), .buildConfigFromFlags (localConfigPath env)],
          match env.buildConfigFromFlags (localConfigPath env) with
          | .ok config => .ok config
          | .error e => .error (.goPanic e)⟩) ∧
    (env.home = "" → getKubeConfig env vm = newKubeConfig env vm) ∧
    (env.home ≠ "" → env.stat (localConfigPath env) = some .notExist →
      getKubeConfig env vm =
        ⟨.stat (localConfigPath env) :: (newKubeConfig env vm).trace,
          (newKubeConfig env vm).out⟩) :=
  ⟨fun hhome hfile => getKubeConfig_local env vm hhome hfile,
   fun hhome => getKubeConfig_noHome env vm hhome,
   fun hhome hfile => getKubeConfig_missing env vm hhome hfile⟩


theorem local_file_example :
    getKubeConfig sampleEnvLocal sampleVM =
      ⟨[.stat "/root/.kube/config", .buildConfigFromFlags "/root/.kube/config"],
        .ok "/root/.kube/config"⟩ ∧
    getKubeConfig sampleEnv sampleVM =
      ⟨.stat "/root/.kube/config" :: (newKubeConfig sampleEnv sampleVM).trace,
        (newKubeConfig sampleEnv sampleVM).out⟩ :=
  ⟨(local_file_verbatim_else_discovery sampleEnvLocal sampleVM).1 (by decide) rfl,
   (local_file_verbatim_else_discovery sampleEnv sampleVM).2.2 (by decide) rfl⟩

theorem printAll_trace (names : List String) :
    ∀ ev ∈ (printAll names).trace, ev.isClusterGet = false ∧ ev.isSynthesis = false := by
  induction names with
  | nil => intro ev hev; simp [printAll, Run.pure_eq] at hev
  | cons name rest ih =>
    unfold printAll
    rw [Run.bind_eq]
    refine call_andThen_all (fun ev => ev.isClusterGet = false ∧ ev.isSynthesis = false)
      _ _ _ ?_ (fun _ => ih)
    exact ⟨rfl, rfl⟩

theorem listPodNames_trace {κ : Type} (env : Env κ) (config : κ) :
    ∀ ev ∈ (listPodNames env config).trace, ev.isClusterGet = false ∧ ev.isSynthesis = false := by
  unfold listPodNames
  rw [Run.bind_eq]
  refine call_andThen_all (fun ev => ev.isClusterGet = false ∧ ev.isSynthesis = false)
    _ _ _ ⟨rfl, rfl⟩ ?_
  intro err
  cases err with
  | some e => intro ev hev; simp [Run.abort] at hev
  | none =>
    simp only [Run.bind_eq]
    refine call_andThen_all (fun ev => ev.isClusterGet = false ∧ ev.isSynthesis = false)
      _ _ _ ⟨rfl, rfl⟩ ?_
    intro r
    cases r with
    | error e => intro ev hev; simp [Run.abort] at hev
    | ok names => exact printAll_trace names

theorem start_local {κ : Type} (env : Env κ) (attrs : List String)
    (hhome : env.home ≠ "") (hfile : env.stat (localConfigPath env) = none)
    (hreq : firstError (requiredLookups env.md) = none)
    (hattrs : env.md.instanceAttributes = .ok attrs) :
    (start env).out = ((loadLocalConfig env).andThen (listPodNames env)).out ∧
    (start env).trace =
      (getVMInfo env.md).trace ++ ((loadLocalConfig env).andThen (listPodNames env)).trace := by
  have hvm := getVMInfo_ok env.md attrs hreq hattrs
  unfold start
  simp only [Run.bind_eq]
  rw [Run.andThen_out_ok _ _ _ hvm, Run.andThen_trace_ok _ _ _ hvm,
    getKubeConfig_local env _ hhome hfile]
  exact ⟨rfl, rfl⟩

/-- C8, as the code has it: in start mode the identity reader runs before
the local configuration file is looked for.  With the file there, a failing
required lookup still stops the run with its error; when the required lookups
and the enumeration succeed, the outcome is that of loading the file and
using it, whatever the metadata service answered, and no cluster management
API call or synthesis takes place. -/
theorem identity_read_precedes_local_file {κ : Type} (env : Env κ) (md' : Metadata)
    (hstart : env.args.get? 1 = some "start")
    (hhome : env.home ≠ "") (hfile : env.stat (localConfigPath env) = none) :
    (∀ e, firstError (requiredLookups env.md) = some e →
      (main env).out = .error (.goPanic e)) ∧
    (∀ attrs attrs', firstError (requiredLookups env.md) = none →
      env.md.instanceAttributes = .ok attrs →
      firstError (requiredLookups md') = none → md'.instanceAttributes = .ok attrs' →
      (main { env with md := md' }).out = (main env).out ∧
      (main env).trace =
        (getVMInfo env.md).trace ++ ((loadLocalConfig env).andThen (listPodNames env)).trace ∧
      ∀ ev ∈ (main env).trace, ev.isClusterGet = false ∧ ev.isSynthesis = false) := by
  refine ⟨fun e he => ?_, fun attrs attrs' hreq hattrs hreq' hattrs' => ?_⟩
  · rw [main_start env hstart]
    unfold start
    rw [Run.bind_eq, Run.andThen_out_error _ _ _ (getVMInfo_abort env.md e he).1]
  · have h1 := start_local env attrs hhome hfile hreq hattrs
    have h2 := start_local { env with md := md' } attrs' hhome hfile hreq' hattrs'
    rw [main_start env hstart, main_start { env with md := md' } hstart]
    refine ⟨h2.1.trans h1.1.symm, h1.2, ?_⟩
    rw [h1.2]
    intro ev hev
    rcases List.mem_append.mp hev with h | h
    · have := getVMInfo_trace env.md ev h
      cases ev <;> simp_all [Event.isReader, Event.isClusterGet, Event.isSynthesis]
    · refine Run.andThen_trace_all _ _ _ ?_ (fun c => listPodNames_trace env c) ev h
      intro ev hev
      simp only [loadLocalConfig, List.mem_cons, List.mem_singleton, List.not_mem_nil,
        or_false] at hev
      rcases hev with h | h <;> subst h <;> exact ⟨rfl, rfl⟩

theorem identity_read_precedes_local_file_witness :
    (∀ e, firstError (requiredLookups sampleEnvLocal.md) = some e →
      (main sampleEnvLocal).out = .error (.goPanic e)) ∧
    (∀ attrs attrs', firstError (requiredLookups sampleEnvLocal.md) = none →
      sampleEnvLocal.md.instanceAttributes = .ok attrs →
      firstError (requiredLookups sampleMetadata) = none →
      sampleMetadata.instanceAttributes = .ok attrs' →
      (main { sampleEnvLocal with md := sampleMetadata }).out = (main sampleEnvLocal).out ∧
      (main sampleEnvLocal).trace =
        (getVMInfo sampleEnvLocal.md).trace ++
          ((loadLocalConfig sampleEnvLocal).andThen (listPodNames sampleEnvLocal)).trace ∧
      ∀ ev ∈ (main sampleEnvLocal).trace, ev.isClusterGet = false ∧ ev.isSynthesis = false) :=
  identity_read_precedes_local_file sampleEnvLocal sampleMetadata (by decide) (by decide)
    (by rfl)

/-- C8 fails as stated: on a machine with a local configuration file where
the lookup of the instance name fails, start mode stops in the identity
reader, before the file is looked for; with the name readable the same machine
succeeds. -/
theorem local_file_does_not_skip_identity_read :
    sampleEnvLocalNoName.home ≠ "" ∧
    sampleEnvLocalNoName.stat (localConfigPath sampleEnvLocalNoName) = none ∧
    (main sampleEnvLocalNoName).out = .error (.goPanic "not defined") ∧
    (main sampleEnvLocalNoName).trace = [.metadata "InstanceName" ""] ∧
    (main sampleEnvLocal).out = .ok () :=
  ⟨by decide, by rfl, by rfl, by rfl, by rfl⟩

/-! ## Labels -/

theorem hasPrefix_iff (s p : String) : hasPrefix s p = true ↔ ∃ t : String, s = p ++ t := by
  unfold hasPrefix
  rw [List.isPrefixOf_iff_prefix]
  constructor
  · rintro ⟨t, ht⟩
    refine ⟨⟨t⟩, String.ext ?_⟩
    rw [String.data_append]
    exact ht.symm
  · rintro ⟨t, rfl⟩
    exact ⟨t.data, (String.data_append p t).symm⟩

theorem sliceFrom_append (p t : String) : sliceFrom (p ++ t) p.length = t := by
  unfold sliceFrom
  apply String.ext
  show ((p ++ t).data.drop p.data.length) = t.data
  rw [String.data_append]
  exact List.drop_left _ _

/-- A name with the label prefix is the prefix followed by its slice. -/
theorem label_name_eq (name : String) (h : hasPrefix name "k8s-label-" = true) :
    name = "k8s-label-" ++ sliceFrom name 10 := by
  obtain ⟨t, rfl⟩ := (hasPrefix_iff _ _).mp h
  have := sliceFrom_append "k8s-label-" t
  rw [show ("k8s-label-" : String).length = 10 from by decide] at this
  rw [this]

theorem hasPrefix_label (k : String) : hasPrefix ("k8s-label-" ++ k) "k8s-label-" = true :=
  (hasPrefix_iff _ _).mpr ⟨k, rfl⟩

theorem sliceFrom_label (k : String) : sliceFrom ("k8s-label-" ++ k) 10 = k := by
  have := sliceFrom_append "k8s-label-" k
  rwa [show ("k8s-label-" : String).length = 10 from by decide] at this

theorem GoMap.mem_set (m : GoMap) (k v k' v' : String) :
    (k', v') ∈ m.set k v ↔ (k' ≠ k ∧ (k', v') ∈ m) ∨ (k' = k ∧ v' = v) := by
  unfold GoMap.set
  simp only [List.mem_append, List.mem_filter, List.mem_singleton, Prod.mk.injEq, bne_iff_ne,
    ne_eq]
  tauto

theorem GoMap.nodup_set (m : GoMap) (k v : String) (h : (m.map Prod.fst).Nodup) :
    ((m.set k v).map Prod.fst).Nodup := by
  unfold GoMap.set
  rw [List.map_append, List.nodup_append]
  refine ⟨?_, by simp, ?_⟩
  · exact (List.filter_sublist m).map Prod.fst |>.nodup h
  · intro a ha hb
    simp only [List.map_cons, List.map_nil, List.mem_singleton] at hb
    subst hb
    obtain ⟨e, he, rfl⟩ := List.mem_map.mp ha
    simpa using (List.mem_filter.mp he).2

theorem GoMap.get?_of_mem (m : GoMap) (k v : String) (hnd : (m.map Prod.fst).Nodup)
    (h : (k, v) ∈ m) : m.get? k = some v := by
  unfold GoMap.get?
  induction m with
  | nil => simp at h
  | cons e rest ih =>
    rw [List.map_cons, List.nodup_cons] at hnd
    rcases List.mem_cons.mp h with h1 | h1
    · subst h1
      simp [List.find?]
    · have hne : e.1 ≠ k := by
        intro he
        exact hnd.1 (he ▸ List.mem_map.mpr ⟨(k, v), h1, rfl⟩)
      simp only [List.find?, beq_iff_eq, hne, decide_False]
      have : (e.1 == k) = false := by simpa using hne
      rw [this]
      exact ih hnd.2 h1

theorem labelsOf_nodup (md : Metadata) (attrs : List String) (m : GoMap)
    (h : (m.map Prod.fst).Nodup) : ((labelsOf md attrs m).map Prod.fst).Nodup := by
  induction attrs generalizing m with
  | nil => exact h
  | cons name rest ih =>
    unfold labelsOf
    split
    · exact ih _ (GoMap.nodup_set m _ _ h)
    · exact ih m h

theorem mem_labelsOf (md : Metadata) (attrs : List String) (m : GoMap) (k v : String) :
    (k, v) ∈ labelsOf md attrs m ↔
      (("k8s-label-" ++ k) ∈ attrs ∧ (md.instanceAttributeValue ("k8s-label-" ++ k)).val = v) ∨
      ((k, v) ∈ m ∧ ("k8s-label-" ++ k) ∉ attrs) := by
  induction attrs generalizing m with
  | nil => simp [labelsOf]
  | cons name rest ih =>
    unfold labelsOf
    by_cases hp : hasPrefix name "k8s-label-" = true
    · rw [if_pos hp, ih, GoMap.mem_set, List.mem_cons]
      have hname := label_name_eq name hp
      by_cases hk : sliceFrom name 10 = k
      · have hnk : "k8s-label-" ++ k = name := by rw [← hk]; exact hname.symm
        rw [hnk]
        constructor
        · rintro (⟨_, hv⟩ | ⟨(⟨hne, _⟩ | ⟨_, hv⟩), hnot⟩)
          · exact Or.inl ⟨Or.inl rfl, hv⟩
          · exact absurd hk.symm hne
          · exact Or.inl ⟨Or.inl rfl, hv.symm⟩
        · rintro (⟨_, hv⟩ | ⟨_, hnot⟩)
          · by_cases hin : name ∈ rest
            · exact Or.inl ⟨hin, hv⟩
            · exact Or.inr ⟨Or.inr ⟨hk.symm, hv.symm⟩, hin⟩
          · exact absurd (Or.inl rfl) hnot
      · have hnk : "k8s-label-" ++ k ≠ name := by
          intro h
          apply hk
          rw [← h, sliceFrom_label]
        constructor
        · rintro (⟨hin, hv⟩ | ⟨(⟨_, hm⟩ | ⟨hkk, _⟩), hnot⟩)
          · exact Or.inl ⟨Or.inr hin, hv⟩
          · exact Or.inr ⟨hm, by rintro (h | h); exact hnk h; exact hnot h⟩
          · exact absurd hkk.symm hk
        · rintro (⟨hin | hin, hv⟩ | ⟨hm, hnot⟩)
          · exact absurd hin hnk
          · exact Or.inl ⟨hin, hv⟩
          · exact Or.inr ⟨Or.inl ⟨fun h => hk h.symm, hm⟩, fun h => hnot (Or.inr h)⟩
    · rw [if_neg hp, ih, List.mem_cons]
      have hnk : "k8s-label-" ++ k ≠ name := by
        intro h
        apply hp
        rw [← h]
        exact hasPrefix_label k
      constructor
      · rintro (⟨hin, hv⟩ | ⟨hm, hnot⟩)
        · exact Or.inl ⟨Or.inr hin, hv⟩
        · exact Or.inr ⟨hm, by rintro (h | h); exact hnk h; exact hnot h⟩
      · rintro (⟨hin | hin, hv⟩ | ⟨hm, hnot⟩)
        · exact absurd hin hnk
        · exact Or.inl ⟨hin, hv⟩
        · exact Or.inr ⟨hm, fun h => hnot (Or.inr h)⟩


theorem mem_labels_identityOf (md : Metadata) (attrs : List String) (k v : String) :
    (k, v) ∈ (identityOf md attrs).VMLabels ↔
      ("k8s-label-" ++ k) ∈ attrs ∧ (md.instanceAttributeValue ("k8s-label-" ++ k)).val = v := by
  unfold identityOf
  simp [mem_labelsOf]

/-- C4: when the required lookups, the enumeration and the value lookups of
the prefixed names succeed, the label map of `getVMInfo` has the entry
`(k, v)` exactly when `"k8s-label-" ++ k` is an enumerated attribute name with
value `v`; its keys are pairwise different; every prefixed name contributes
the entry keyed by its slice from byte 10. -/
theorem labels_are_prefixed_attributes_stripped (md : Metadata) (attrs : List String)
    (hreq : firstError (requiredLookups md) = none)
    (hattrs : md.instanceAttributes = .ok attrs)
    (hvals : ∀ name ∈ attrs, hasPrefix name "k8s-label-" = true →
      ∃ v, md.instanceAttributeValue name = .ok v) :
    ∃ vm, (getVMInfo md).out = .ok vm ∧
      (∀ k v, (k, v) ∈ vm.VMLabels ↔
        ("k8s-label-" ++ k) ∈ attrs ∧ md.instanceAttributeValue ("k8s-label-" ++ k) = .ok v) ∧
      (vm.VMLabels.map Prod.fst).Nodup ∧
      (∀ name ∈ attrs, hasPrefix name "k8s-label-" = true →
        name = "k8s-label-" ++ sliceFrom name 10 ∧
        ∃ v, md.instanceAttributeValue name = .ok v ∧
          vm.VMLabels.get? (sliceFrom name 10) = some v) ∧
      (∀ name ∈ attrs, hasPrefix name "k8s-label-" = false →
        ∀ v, (name, v) ∈ vm.VMLabels → ("k8s-label-" ++ name) ∈ attrs) := by
  have hnd : ((identityOf md attrs).VMLabels.map Prod.fst).Nodup :=
    labelsOf_nodup md attrs [] (by simp)
  refine ⟨identityOf md attrs, getVMInfo_ok md attrs hreq hattrs, ?_, hnd, ?_, ?_⟩
  · intro k v
    rw [mem_labels_identityOf]
    constructor
    · rintro ⟨hin, hv⟩
      obtain ⟨w, hw⟩ := hvals _ hin (hasPrefix_label k)
      rw [hw] at hv ⊢
      exact ⟨hin, by rw [← hv]; rfl⟩
    · rintro ⟨hin, hv⟩
      exact ⟨hin, by rw [hv]; rfl⟩
  · intro name hin hp
    have hname := label_name_eq name hp
    obtain ⟨w, hw⟩ := hvals name hin hp
    refine ⟨hname, w, hw, GoMap.get?_of_mem _ _ _ hnd ?_⟩
    rw [mem_labels_identityOf, ← hname, hw]
    exact ⟨hin, rfl⟩
  · intro name _ _ v hv
    exact ((mem_labels_identityOf md attrs name v).mp hv).1

theorem labels_example :
    (∃ vm, (getVMInfo sampleMetadata).out = .ok vm ∧
      (∀ k v, (k, v) ∈ vm.VMLabels ↔
        ("k8s-label-" ++ k) ∈ ["k8s-label-team", "other-attr"] ∧
          sampleMetadata.instanceAttributeValue ("k8s-label-" ++ k) = .ok v) ∧
      (vm.VMLabels.map Prod.fst).Nodup ∧
      (∀ name ∈ ["k8s-label-team", "other-attr"], hasPrefix name "k8s-label-" = true →
        name = "k8s-label-" ++ sliceFrom name 10 ∧
        ∃ v, sampleMetadata.instanceAttributeValue name = .ok v ∧
          vm.VMLabels.get? (sliceFrom name 10) = some v) ∧
      (∀ name ∈ ["k8s-label-team", "other-attr"], hasPrefix name "k8s-label-" = false →
        ∀ v, (name, v) ∈ vm.VMLabels →
          ("k8s-label-" ++ name) ∈ ["k8s-label-team", "other-attr"])) ∧
    (getVMInfo sampleMetadata).out.toOption.map vmInfo.VMLabels = some [("team", "infra")] :=
  ⟨labels_are_prefixed_attributes_stripped sampleMetadata ["k8s-label-team", "other-attr"]
      (by decide) rfl
      (fun name hin hp => by
        rcases List.mem_cons.mp hin with h | h
        · exact ⟨"infra", by rw [h]; rfl⟩
        · rw [List.mem_singleton.mp h] at hp
          exact absurd hp (by decide)),
    by rfl⟩

/-- C9: when the required lookups and the enumeration succeed, `getVMInfo`
returns; a service account name or token whose lookup failed is the empty
string, one whose lookup succeeded is the value read; every enumerated name
with the label prefix has an entry under its slice from byte 10, the empty
string when its lookup failed and the value read otherwise. -/
theorem optional_lookup_failures_degrade_to_empty (md : Metadata) (attrs : List String)
    (hreq : firstError (requiredLookups md) = none)
    (hattrs : md.instanceAttributes = .ok attrs) :
    ∃ vm, (getVMInfo md).out = .ok vm ∧
      (∀ e, md.instanceAttributeValue "k8s-sa-name" = .fail e → vm.KsaName = "") ∧
      (∀ v, md.instanceAttributeValue "k8s-sa-name" = .ok v → vm.KsaName = v) ∧
      (∀ e, md.instanceAttributeValue "k8s-sa-token" = .fail e → vm.KsaToken = "") ∧
      (∀ v, md.instanceAttributeValue "k8s-sa-token" = .ok v → vm.KsaToken = v) ∧
      (∀ name ∈ attrs, hasPrefix name "k8s-label-" = true →
        (∀ e, md.instanceAttributeValue name = .fail e →
          vm.VMLabels.get? (sliceFrom name 10) = some "") ∧
        (∀ v, md.instanceAttributeValue name = .ok v →
          vm.VMLabels.get? (sliceFrom name 10) = some v)) := by
  have hnd : ((identityOf md attrs).VMLabels.map Prod.fst).Nodup :=
    labelsOf_nodup md attrs [] (by simp)
  refine ⟨identityOf md attrs, getVMInfo_ok md attrs hreq hattrs, ?_, ?_, ?_, ?_, ?_⟩
  · intro e he; simp [identityOf, he, Lookup.val]
  · intro v hv; simp [identityOf, hv, Lookup.val]
  · intro e he; simp [identityOf, he, Lookup.val]
  · intro v hv; simp [identityOf, hv, Lookup.val]
  · intro name hin hp
    have hname := label_name_eq name hp
    have hmem : ∀ v, (md.instanceAttributeValue name).val = v →
        (identityOf md attrs).VMLabels.get? (sliceFrom name 10) = some v := by
      intro v hv
      refine GoMap.get?_of_mem _ _ _ hnd ?_
      rw [mem_labels_identityOf, ← hname]
      exact ⟨hin, hv⟩
    exact ⟨fun e he => hmem "" (by rw [he]; rfl), fun v hv => hmem v (by rw [hv]; rfl)⟩

theorem optional_lookup_failures_example :
    (∃ vm, (getVMInfo sampleMetadataDegraded).out = .ok vm ∧
      (∀ e, sampleMetadataDegraded.instanceAttributeValue "k8s-sa-name" = .fail e →
        vm.KsaName = "") ∧
      (∀ v, sampleMetadataDegraded.instanceAttributeValue "k8s-sa-name" = .ok v →
        vm.KsaName = v) ∧
      (∀ e, sampleMetadataDegraded.instanceAttributeValue "k8s-sa-token" = .fail e →
        vm.KsaToken = "") ∧
      (∀ v, sampleMetadataDegraded.instanceAttributeValue "k8s-sa-token" = .ok v →
        vm.KsaToken = v) ∧
      (∀ name ∈ ["k8s-label-team", "k8s-label-tier", "other-attr"],
        hasPrefix name "k8s-label-" = true →
        (∀ e, sampleMetadataDegraded.instanceAttributeValue name = .fail e →
          vm.VMLabels.get? (sliceFrom name 10) = some "") ∧
        (∀ v, sampleMetadataDegraded.instanceAttributeValue name = .ok v →
          vm.VMLabels.get? (sliceFrom name 10) = some v))) ∧
    (getVMInfo sampleMetadataDegraded).out.toOption.map
        (fun vm => (vm.KsaName, vm.KsaToken, vm.VMLabels)) =
      some ("", "", [("team", "infra"), ("tier", "")]) ∧
    sampleMetadataDegraded.instanceAttributeValue "k8s-label-tier" = .fail "not defined" :=
  ⟨optional_lookup_failures_degrade_to_empty sampleMetadataDegraded
      ["k8s-label-team", "k8s-label-tier", "other-attr"] (by decide) rfl,
    by rfl, by rfl⟩


/-! ## Rendering -/

theorem sprintf_static (ca ep n k t : String) :
    sprintf kubeConfigKsaTemp [ca, ep, n, k, t] = some (staticDocument ca ep n k t) := by
  simp only [sprintf, Option.map_eq_some']
  refine ⟨_, rfl, ?_⟩
  apply String.ext
  simp [staticDocument, String.data_append]

theorem sprintf_dynamic (ca ep n p : String) :
    sprintf kubeConfigGsaTemp [ca, ep, n, p] = some (dynamicDocument ca ep n p) := by
  simp only [sprintf, Option.map_eq_some']
  refine ⟨_, rfl, ?_⟩
  apply String.ext
  simp [dynamicDocument, dynamicHead, dynamicTail, String.data_append]

theorem kubeConfig_static {κ : Type} (env : Env κ) (vm : vmInfo) (ca ep n : String)
    (hname : vm.KsaName ≠ "") (htoken : vm.KsaToken ≠ "") :
    kubeConfig env ⟨some ⟨ca⟩, ep, n⟩ vm =
      ⟨[], .ok (staticDocument ca ep n vm.KsaName vm.KsaToken)⟩ := by
  unfold kubeConfig
  rw [if_pos ⟨hname, htoken⟩]
  simp only [sprintf_static]
  rfl

theorem kubeConfig_dynamic {κ : Type} (env : Env κ) (vm : vmInfo) (ca ep n pwd arg0 : String)
    (rest : List String) (hmode : vm.KsaName = "" ∨ vm.KsaToken = "")
    (hwd : env.getwd = .ok pwd) (hargs : env.args = arg0 :: rest) :
    kubeConfig env ⟨some ⟨ca⟩, ep, n⟩ vm =
      ⟨[.getwd], .ok (dynamicDocument ca ep n (env.join [pwd, arg0]))⟩ := by
  unfold kubeConfig
  have hnot : ¬ (vm.KsaName ≠ "" ∧ vm.KsaToken ≠ "") := by
    rintro ⟨h1, h2⟩
    rcases hmode with h | h
    · exact h1 h
    · exact h2 h
  rw [if_neg hnot]
  simp only [hwd, hargs, sprintf_dynamic, Run.bind_eq, Run.call, Run.andThen_ok, Lookup.err,
    fatalIf, Run.pure_eq, Lookup.val, formatted, List.append_nil]

theorem newKubeConfig_resolved {κ : Type} (env : Env κ) (vm : vmInfo) (cluster : Cluster)
    (doc : String) (t : List Event)
    (hhttp : env.newHTTPClient = none) (hgke : env.gkeNew = none)
    (hcluster : env.clusterGet vm.ProjectID vm.ClusterZone vm.ClusterName = .ok cluster)
    (hdoc : kubeConfig env cluster vm = ⟨t, .ok doc⟩) :
    newKubeConfig env vm =
      ⟨[.newHTTPClient, .gkeNew, .clusterGet vm.ProjectID vm.ClusterZone vm.ClusterName] ++ t ++
          [.restConfigFromKubeConfig doc],
        parseOutcome (env.restConfigFromKubeConfig doc)⟩ := by
  unfold newKubeConfig parseOutcome
  simp only [hhttp, hgke, hcluster, hdoc, Run.bind_eq, Run.call, Run.andThen_ok, fatalIf,
    Run.pure_eq, List.append_nil, List.nil_append, List.singleton_append, List.cons_append,
    List.append_assoc]
  cases env.restConfigFromKubeConfig doc <;> simp [Run.abort]


/-! ## Where a pattern can occur in a document -/

theorem prefix_append_sep {p x y : List Char} {s : Char} (hs : s ∉ p)
    (h : p <+: x ++ s :: y) : p <+: x := by
  induction x generalizing p with
  | nil =>
    cases p with
    | nil => exact List.nil_prefix
    | cons c p' =>
      rw [List.nil_append, List.cons_prefix_cons] at h
      exact absurd (h.1 ▸ List.mem_cons_self c p') hs
  | cons a x' ih =>
    cases p with
    | nil => exact List.nil_prefix
    | cons c p' =>
      rw [List.cons_append, List.cons_prefix_cons] at h
      rw [List.cons_prefix_cons]
      exact ⟨h.1, ih (fun hm => hs (List.mem_cons_of_mem c hm)) h.2⟩

theorem infix_append_sep {p x y : List Char} {s : Char} (hs : s ∉ p)
    (h : p <:+: x ++ s :: y) : p <:+: x ∨ p <:+: y := by
  induction x with
  | nil =>
    rw [List.nil_append, List.infix_cons_iff] at h
    rcases h with h | h
    · exact Or.inl (prefix_append_sep (x := []) hs h).isInfix
    · exact Or.inr h
  | cons a x' ih =>
    rw [List.cons_append, List.infix_cons_iff] at h
    rcases h with h | h
    · exact Or.inl (prefix_append_sep (x := a :: x') hs h).isInfix
    · rcases ih h with h' | h'
      · exact Or.inl (List.infix_cons h')
      · exact Or.inr h'

theorem infix_joinSep (p : List Char) (ps : List (List Char × Char)) (last : List Char)
    (hsep : ∀ xs ∈ ps, xs.2 ∉ p) (h : p <:+: joinSep ps last) :
    (∃ xs ∈ ps, p <:+: xs.1) ∨ p <:+: last := by
  induction ps with
  | nil => exact Or.inr h
  | cons xs rest ih =>
    obtain ⟨x, s⟩ := xs
    rcases infix_append_sep (hsep (x, s) (List.mem_cons_self _ _)) h with h' | h'
    · exact Or.inl ⟨(x, s), List.mem_cons_self _ _, h'⟩
    · rcases ih (fun xs hxs => hsep xs (List.mem_cons_of_mem _ hxs)) h' with ⟨xs, hxs, hp⟩ | hp
      · exact Or.inl ⟨xs, List.mem_cons_of_mem _ hxs, hp⟩
      · exact Or.inr hp

theorem staticDocument_data (ca ep n k t : String) :
    (staticDocument ca ep n k t).data = joinSep
      [("\n      apiVersion: v1\n      clusters:\n      - cluster:\n          certificate-authority-data:".data, ' '),
      (ca.data, '\n'),
      ("          server: https:/".data, '/'),
      (ep.data, '\n'),
      ("        name:".data, ' '),
      (n.data, '\n'),
      ("      contexts:\n      - context:\n          cluster:".data, ' '),
      (n.data, '\n'),
      ("          user:".data, ' '),
      (k.data, '\n'),
      ("        name:".data, ' '),
      (n.data, '\n'),
      ("      current-context:".data, ' '),
      (n.data, '\n'),
      ("      kind: Config\n      preferences: \x7b\x7d\n      users:\n      - name:".data, ' '),
      (k.data, '\n'),
      ("        user:\n          token:".data, ' ')]
      t.data := by
  simp [staticDocument, joinSep, String.data_append]

/-- A text without blank, slash and line feed that occurs in the static
document occurs in the template or in one of the five values. -/
theorem occurs_in_staticDocument (pat ca ep n k t : String)
    (hblank : ' ' ∉ pat.data) (hslash : '/' ∉ pat.data) (hfeed : '\n' ∉ pat.data)
    (h : occursIn pat (staticDocument ca ep n k t)) :
    occursIn pat kubeConfigKsaTemp ∨ occursIn pat ca ∨ occursIn pat ep ∨ occursIn pat n ∨
      occursIn pat k ∨ occursIn pat t := by
  unfold occursIn at *
  rw [staticDocument_data] at h
  refine Or.elim (infix_joinSep _ _ _ ?hsep h) ?_ ?_
  case hsep =>
    intro xs hxs
    simp only [List.mem_cons, List.mem_singleton, List.not_mem_nil, or_false] at hxs
    rcases hxs with h | h | h | h | h | h | h | h | h | h | h | h | h | h | h | h | h <;>
      subst h <;> assumption
  · rintro ⟨xs, hxs, hp⟩
    simp only [List.mem_cons, List.mem_singleton, List.not_mem_nil, or_false] at hxs
    rcases hxs with h | h | h | h | h | h | h | h | h | h | h | h | h | h | h | h | h <;>
      subst h <;>
      first
        | exact Or.inl (hp.trans (by decide))
        | exact Or.inr (Or.inl hp)
        | exact Or.inr (Or.inr (Or.inl hp))
        | exact Or.inr (Or.inr (Or.inr (Or.inl hp)))
        | exact Or.inr (Or.inr (Or.inr (Or.inr (Or.inl hp))))
  · intro hp
    exact Or.inr (Or.inr (Or.inr (Or.inr (Or.inr hp))))


/-- C1, as the code has it: with both service account fields non-empty and
the cluster resolved, `newKubeConfig` hands to the parser the static template
filled with certificate, endpoint, cluster name, `KsaName` and `KsaToken`; the
document ends with `token: ` followed by `KsaToken` unchanged; the template
holds neither `auth-provider` nor `exec`, and the document holds them only if
one of the five values does. -/
theorem static_variant_embeds_token_verbatim {κ : Type} (env : Env κ) (vm : vmInfo)
    (ca ep name : String)
    (hname : vm.KsaName ≠ "") (htoken : vm.KsaToken ≠ "")
    (hhttp : env.newHTTPClient = none) (hgke : env.gkeNew = none)
    (hcluster : env.clusterGet vm.ProjectID vm.ClusterZone vm.ClusterName =
      .ok ⟨some ⟨ca⟩, ep, name⟩) :
    newKubeConfig env vm =
      ⟨[.newHTTPClient, .gkeNew, .clusterGet vm.ProjectID vm.ClusterZone vm.ClusterName,
          .restConfigFromKubeConfig (staticDocument ca ep name vm.KsaName vm.KsaToken)],
        parseOutcome
          (env.restConfigFromKubeConfig (staticDocument ca ep name vm.KsaName vm.KsaToken))⟩ ∧
    sprintf kubeConfigKsaTemp [ca, ep, name, vm.KsaName, vm.KsaToken] =
      some (staticDocument ca ep name vm.KsaName vm.KsaToken) ∧
    (∃ pre, staticDocument ca ep name vm.KsaName vm.KsaToken =
      pre ++ "\n        user:\n          token: " ++ vm.KsaToken) ∧
    (∀ pat ∈ ["auth-provider", "exec"],
      ¬ occursIn pat kubeConfigKsaTemp ∧
      (¬ occursIn pat ca → ¬ occursIn pat ep → ¬ occursIn pat name →
        ¬ occursIn pat vm.KsaName → ¬ occursIn pat vm.KsaToken →
        ¬ occursIn pat (staticDocument ca ep name vm.KsaName vm.KsaToken))) := by
  refine ⟨?_, sprintf_static _ _ _ _ _, ⟨_, rfl⟩, ?_⟩
  · exact newKubeConfig_resolved env vm _ _ [] hhttp hgke hcluster
      (kubeConfig_static env vm ca ep name hname htoken)
  · intro pat hpat
    have hT : ¬ occursIn pat kubeConfigKsaTemp := by
      simp only [List.mem_cons, List.mem_singleton, List.not_mem_nil, or_false] at hpat
      rcases hpat with h | h <;> subst h <;> decide
    refine ⟨hT, fun h1 h2 h3 h4 h5 hdoc => ?_⟩
    have hchars : ' ' ∉ pat.data ∧ '/' ∉ pat.data ∧ '\n' ∉ pat.data := by
      simp only [List.mem_cons, List.mem_singleton, List.not_mem_nil, or_false] at hpat
      rcases hpat with h | h <;> subst h <;> decide
    rcases occurs_in_staticDocument pat ca ep name vm.KsaName vm.KsaToken
      hchars.1 hchars.2.1 hchars.2.2 hdoc with h | h | h | h | h | h
    · exact hT h
    · exact h1 h
    · exact h2 h
    · exact h3 h
    · exact h4 h
    · exact h5 h

theorem static_variant_example :
    newKubeConfig sampleEnv sampleVMStatic =
      ⟨[.newHTTPClient, .gkeNew, .clusterGet "proj" "us-west1-a" "cluster-1",
          .restConfigFromKubeConfig (staticDocument "Q0E=" "10.1.1.1" "cluster-1" "sa" "abc")],
        parseOutcome
          (sampleEnv.restConfigFromKubeConfig
            (staticDocument "Q0E=" "10.1.1.1" "cluster-1" "sa" "abc"))⟩ ∧
    ¬ occursIn "auth-provider" (staticDocument "Q0E=" "10.1.1.1" "cluster-1" "sa" "abc") :=
  have h := static_variant_embeds_token_verbatim sampleEnv sampleVMStatic "Q0E=" "10.1.1.1"
    "cluster-1" (by decide) (by decide) rfl rfl rfl
  ⟨h.1, (h.2.2.2 "auth-provider" (by simp)).2 (by decide) (by decide) (by decide) (by decide)
    (by decide)⟩

/-- C1 fails as stated: a token attribute of three lines is embedded
unchanged, and the static document then carries an `auth-provider` entry under
the user. -/
theorem static_variant_can_carry_auth_provider :
    sampleVMInjected.KsaName ≠ "" ∧ sampleVMInjected.KsaToken ≠ "" ∧
    ∃ doc, parsedDocs (newKubeConfig sampleEnv sampleVMInjected).trace = [doc] ∧
      occursIn "auth-provider" doc ∧
      (splitLines doc).drop 16 =
        ["      - name: sa", "        user:", "          token: abc",
         "          auth-provider:", "            name: gcp"] :=
  ⟨by decide, by decide, _, rfl, by decide, by decide⟩


/-- C2: with `KsaName` or `KsaToken` empty, the cluster resolved and the
working directory known, `newKubeConfig` hands to the parser the dynamic
template filled with certificate, endpoint, cluster name and, as `cmd-path`,
`filepath.Join` of the working directory and `os.Args[0]`; the run is the same
for every other pair of service account fields of which one is empty. -/
theorem dynamic_variant_ignores_service_account {κ : Type} (env : Env κ) (vm : vmInfo)
    (ca ep name pwd arg0 : String) (rest : List String)
    (hmode : vm.KsaName = "" ∨ vm.KsaToken = "")
    (hhttp : env.newHTTPClient = none) (hgke : env.gkeNew = none)
    (hcluster : env.clusterGet vm.ProjectID vm.ClusterZone vm.ClusterName =
      .ok ⟨some ⟨ca⟩, ep, name⟩)
    (hwd : env.getwd = .ok pwd) (hargs : env.args = arg0 :: rest) :
    newKubeConfig env vm =
      ⟨[.newHTTPClient, .gkeNew, .clusterGet vm.ProjectID vm.ClusterZone vm.ClusterName,
          .getwd,
          .restConfigFromKubeConfig (dynamicDocument ca ep name (env.join [pwd, arg0]))],
        parseOutcome
          (env.restConfigFromKubeConfig (dynamicDocument ca ep name (env.join [pwd, arg0])))⟩ ∧
    sprintf kubeConfigGsaTemp [ca, ep, name, env.join [pwd, arg0]] =
      some (dynamicDocument ca ep name (env.join [pwd, arg0])) ∧
    (∀ ksaName ksaToken, ksaName = "" ∨ ksaToken = "" →
      newKubeConfig env { vm with KsaName := ksaName, KsaToken := ksaToken } =
        newKubeConfig env vm) := by
  have key : ∀ vm' : vmInfo, (vm'.KsaName = "" ∨ vm'.KsaToken = "") →
      env.clusterGet vm'.ProjectID vm'.ClusterZone vm'.ClusterName = .ok ⟨some ⟨ca⟩, ep, name⟩ →
      newKubeConfig env vm' =
      ⟨[.newHTTPClient, .gkeNew, .clusterGet vm'.ProjectID vm'.ClusterZone vm'.ClusterName,
          .getwd,
          .restConfigFromKubeConfig (dynamicDocument ca ep name (env.join [pwd, arg0]))],
        parseOutcome
          (env.restConfigFromKubeConfig
            (dynamicDocument ca ep name (env.join [pwd, arg0])))⟩ := by
    intro vm' hmode' hcluster'
    exact newKubeConfig_resolved env vm' _ _ [.getwd] hhttp hgke hcluster'
      (kubeConfig_dynamic env vm' ca ep name pwd arg0 rest hmode' hwd hargs)
  refine ⟨key vm hmode hcluster, sprintf_dynamic _ _ _ _, ?_⟩
  intro ksaName ksaToken hmode'
  rw [key vm hmode hcluster, key { vm with KsaName := ksaName, KsaToken := ksaToken } hmode'
    hcluster]

theorem dynamic_variant_example :
    newKubeConfig sampleEnv sampleVM =
      ⟨[.newHTTPClient, .gkeNew, .clusterGet "proj" "us-west1-a" "cluster-1", .getwd,
          .restConfigFromKubeConfig
            (dynamicDocument "Q0E=" "10.1.1.1" "cluster-1" "/opt/vmdaemon")],
        .ok (dynamicDocument "Q0E=" "10.1.1.1" "cluster-1" "/opt/vmdaemon")⟩ ∧
    newKubeConfig sampleEnv { sampleVM with KsaName := "sa", KsaToken := "" } =
      newKubeConfig sampleEnv sampleVM ∧
    newKubeConfig sampleEnv { sampleVM with KsaName := "", KsaToken := "abc" } =
      newKubeConfig sampleEnv sampleVM :=
  have h := dynamic_variant_ignores_service_account sampleEnv sampleVM "Q0E=" "10.1.1.1"
    "cluster-1" "/opt" "vmdaemon" ["start"] (Or.inl rfl) rfl rfl rfl rfl rfl
  ⟨h.1, h.2.2 "sa" "" (Or.inr rfl), h.2.2 "" "abc" (Or.inl rfl)⟩

theorem getCredentials_granted {κ : Type} (env : Env κ) (jsonData : String) (token : gsaToken)
    (hget : env.md.get "instance/service-accounts/default/token" = .ok jsonData)
    (hjson : env.unmarshal jsonData = .ok token) :
    getCredentials env =
      ⟨[.metadata "Get" "instance/service-accounts/default/token",
          .stdoutJSON (marshal (credential token env.now))], .ok ()⟩ := by
  unfold getCredentials
  simp only [hget, must_ok, Run.bind_eq, Run.andThen_ok, hjson, Run.call, List.singleton_append]

/-- C10: in the dynamic mode the document that `newKubeConfig` renders from
`kubeConfigGsaTemp` and hands to the parser ends with the block that names the
command `get-credential`, the command path, and the keys `token_expiry` and
`access_token`; `main` runs `getCredentials` when `os.Args[1]` is
`get-credential` and runs `start` or prints the usage line otherwise; the JSON
object that `getCredentials` prints has exactly the fields `access_token`,
holding the granted access token unchanged, and `token_expiry`. -/
theorem dynamic_document_matches_credential_provider {κ : Type} (env : Env κ) (vm : vmInfo)
    (ca ep name pwd arg0 jsonData : String) (rest : List String) (token : gsaToken)
    (hmode : vm.KsaName = "" ∨ vm.KsaToken = "")
    (hhttp : env.newHTTPClient = none) (hgke : env.gkeNew = none)
    (hcluster : env.clusterGet vm.ProjectID vm.ClusterZone vm.ClusterName =
      .ok ⟨some ⟨ca⟩, ep, name⟩)
    (hwd : env.getwd = .ok pwd) (hargs : env.args = arg0 :: rest)
    (hget : env.md.get "instance/service-accounts/default/token" = .ok jsonData)
    (hjson : env.unmarshal jsonData = .ok token) :
    (∃ doc, sprintf kubeConfigGsaTemp [ca, ep, name, env.join [pwd, arg0]] = some doc ∧
      parsedDocs (newKubeConfig env vm).trace = [doc] ∧
      doc = dynamicHead ca ep name ++
        "\n  user:\n    auth-provider:\n      config:\n        cmd-args: " ++
        "get-credential" ++ "\n        cmd-path: " ++ env.join [pwd, arg0] ++
        "\n        expiry-key: \x27\x7b." ++ "token_expiry" ++
        "\x7d\x27\n        token-key: \x27\x7b." ++ "access_token" ++
        "\x7d\x27\n      name: gcp") ∧
    (env.args.get? 1 = some "get-credential" → main env = getCredentials env) ∧
    (∀ cmd, env.args.get? 1 = some cmd → cmd ≠ "get-credential" →
      main env = start env ∨ main env = usage env) ∧
    ∃ expiry, getCredentials env =
      ⟨[.metadata "Get" "instance/service-accounts/default/token",
          .stdoutJSON (.obj [("access_token", .str token.AccessToken),
            ("token_expiry", .str expiry)])], .ok ()⟩ := by
  have hfmt : sprintf kubeConfigGsaTemp [ca, ep, name, env.join [pwd, arg0]] =
      some (dynamicDocument ca ep name (env.join [pwd, arg0])) := by
    simp only [sprintf, Option.map_eq_some']
    refine ⟨_, rfl, ?_⟩
    apply String.ext
    simp [dynamicDocument, dynamicHead, dynamicTail, String.data_append]
  have hdoc : kubeConfig env ⟨some ⟨ca⟩, ep, name⟩ vm =
      ⟨[.getwd], .ok (dynamicDocument ca ep name (env.join [pwd, arg0]))⟩ := by
    unfold kubeConfig
    have hnot : ¬ (vm.KsaName ≠ "" ∧ vm.KsaToken ≠ "") := by
      rintro ⟨h1, h2⟩
      rcases hmode with h | h
      · exact h1 h
      · exact h2 h
    rw [if_neg hnot]
    simp only [hwd, hargs, hfmt, Run.bind_eq, Run.call, Run.andThen_ok, Lookup.err, fatalIf,
      Run.pure_eq, Lookup.val, formatted, List.append_nil]
  have hrun : parsedDocs (newKubeConfig env vm).trace =
      [dynamicDocument ca ep name (env.join [pwd, arg0])] := by
    unfold newKubeConfig
    simp only [hhttp, hgke, hcluster, hdoc, Run.bind_eq, Run.call, Run.andThen_ok, fatalIf,
      Run.pure_eq, List.append_nil, List.nil_append, List.singleton_append, List.cons_append,
      List.append_assoc]
    cases env.restConfigFromKubeConfig (dynamicDocument ca ep name (env.join [pwd, arg0])) <;>
      simp [Run.abort, parsedDocs]
  refine ⟨⟨dynamicDocument ca ep name (env.join [pwd, arg0]), hfmt, hrun, ?_⟩,
    ?_, ?_, ⟨_, getCredentials_granted env jsonData token hget hjson⟩⟩
  · apply String.ext
    simp only [dynamicDocument, dynamicTail, String.data_append, List.append_assoc]
    rfl
  · intro hcmd
    have hlen : ¬ env.args.length < 2 := by
      intro h
      rw [List.get?_eq_none.mpr (Nat.lt_succ_iff.mp h)] at hcmd
      exact absurd hcmd (by simp)
    unfold main
    rw [if_neg hlen, hcmd]
    rfl
  · intro cmd hcmd hne
    have hlen : ¬ env.args.length < 2 := by
      intro h
      rw [List.get?_eq_none.mpr (Nat.lt_succ_iff.mp h)] at hcmd
      exact absurd hcmd (by simp)
    unfold main
    rw [if_neg hlen, hcmd]
    by_cases hs : cmd = "start"
    · subst hs; exact Or.inl rfl
    · right
      split
      · rename_i heq; exact absurd (Option.some.inj heq) hne
      · rename_i heq; exact absurd (Option.some.inj heq) hs
      · rfl

theorem credential_provider_example :
    (∃ doc, sprintf kubeConfigGsaTemp ["Q0E=", "10.1.1.1", "cluster-1", "/opt/vmdaemon"] =
        some doc ∧
      parsedDocs
        (newKubeConfig { sampleEnv with args := ["vmdaemon", "get-credential"] } sampleVM).trace =
        [doc] ∧
      doc = dynamicHead "Q0E=" "10.1.1.1" "cluster-1" ++
        "\n  user:\n    auth-provider:\n      config:\n        cmd-args: " ++
        "get-credential" ++ "\n        cmd-path: " ++ "/opt/vmdaemon" ++
        "\n        expiry-key: \x27\x7b." ++ "token_expiry" ++
        "\x7d\x27\n        token-key: \x27\x7b." ++ "access_token" ++
        "\x7d\x27\n      name: gcp") ∧
    main { sampleEnv with args := ["vmdaemon", "get-credential"] } =
      ⟨[.metadata "Get" "instance/service-accounts/default/token",
          .stdoutJSON (.obj [("access_token", .str "ya29.a0"),
            ("token_expiry", .str "2023-11-14T23:13:19Z")])], .ok ()⟩ :=
  have h := dynamic_document_matches_credential_provider
    { sampleEnv with args := ["vmdaemon", "get-credential"] } sampleVM "Q0E=" "10.1.1.1"
    "cluster-1" "/opt" "vmdaemon" "grant" ["get-credential"]
    { AccessToken := "ya29.a0", ExpiresIn := 3599, TokenType := "Bearer" }
    (Or.inl rfl) rfl rfl rfl rfl rfl rfl rfl
  ⟨⟨dynamicDocument "Q0E=" "10.1.1.1" "cluster-1" "/opt/vmdaemon", by rfl, by rfl, by rfl⟩,
    (h.2.1 rfl).trans rfl⟩


/-! ## Calendar -/

theorem cycles_spec (d : Int) :
    d = 146097 * (cycles d).1 + 36524 * (cycles d).2.1 + 1461 * (cycles d).2.2.1 +
        365 * (cycles d).2.2.2.1 + (cycles d).2.2.2.2 ∧
    0 ≤ (cycles d).2.1 ∧ (cycles d).2.1 ≤ 3 ∧
    0 ≤ (cycles d).2.2.1 ∧ (cycles d).2.2.1 ≤ 24 ∧
    0 ≤ (cycles d).2.2.2.1 ∧ (cycles d).2.2.2.1 ≤ 3 ∧
    0 ≤ (cycles d).2.2.2.2 ∧
    ((cycles d).2.2.2.2 ≤ 364 ∨
      ((cycles d).2.2.2.2 = 365 ∧ (cycles d).2.2.2.1 = 3 ∧
        ((cycles d).2.2.1 ≤ 23 ∨ (cycles d).2.1 = 3))) := by
  simp only [cycles]
  generalize hn400 : d / 146097 = n400
  have h1 : 0 ≤ d - 146097 * n400 ∧ d - 146097 * n400 < 146097 := by omega
  generalize hd1 : d - 146097 * n400 = d1 at h1 ⊢
  generalize hq : d1 / 36524 = q
  have hq' : 0 ≤ q ∧ q ≤ 4 ∧ 36524 * q ≤ d1 ∧ d1 < 36524 * q + 36524 := by omega
  generalize hq4 : q / 4 = q4
  have hq4' : (q ≤ 3 ∧ q4 = 0) ∨ (q = 4 ∧ q4 = 1) := by omega
  have h2 : 0 ≤ q - q4 ∧ q - q4 ≤ 3 ∧ 0 ≤ d1 - 36524 * (q - q4) ∧
      d1 - 36524 * (q - q4) ≤ 36524 ∧ (d1 - 36524 * (q - q4) = 36524 → q - q4 = 3) := by omega
  generalize hn100 : q - q4 = n100 at h2 ⊢
  generalize hd2 : d1 - 36524 * n100 = d2 at h2 ⊢
  generalize hn4 : d2 / 1461 = n4
  have h3 : 0 ≤ n4 ∧ n4 ≤ 24 ∧ 0 ≤ d2 - 1461 * n4 ∧ d2 - 1461 * n4 ≤ 1460 ∧
      (n4 = 24 → d2 - 1461 * n4 = 1460 → n100 = 3) := by omega
  generalize hd3 : d2 - 1461 * n4 = d3 at h3 ⊢
  generalize hr : d3 / 365 = r
  have hr' : 0 ≤ r ∧ r ≤ 4 ∧ 365 * r ≤ d3 ∧ d3 < 365 * r + 365 := by omega
  generalize hr4 : r / 4 = r4
  have hr4' : (r ≤ 3 ∧ r4 = 0) ∨ (r = 4 ∧ r4 = 1) := by omega
  clear hn400 hq hq4 hn4 hr hr4
  omega

theorem year_divs (a b c e : Int) (hb : 0 ≤ b ∧ b ≤ 3) (hc : 0 ≤ c ∧ c ≤ 24)
    (he : 0 ≤ e ∧ e ≤ 3) :
    (400 * a + 100 * b + 4 * c + e + 1 - 1) / 4 = 100 * a + 25 * b + c ∧
    (400 * a + 100 * b + 4 * c + e + 1 - 1) / 100 = 4 * a + b ∧
    (400 * a + 100 * b + 4 * c + e + 1 - 1) / 400 = a ∧
    (isLeap (400 * a + 100 * b + 4 * c + e + 1) = true ↔ e = 3 ∧ (c ≤ 23 ∨ b = 3)) := by
  refine ⟨by omega, by omega, by omega, ?_⟩
  simp only [isLeap, decide_eq_true_eq]
  omega

theorem daysBeforeMonth_values :
    daysBeforeMonth 1 = 0 ∧ daysBeforeMonth 2 = 31 ∧ daysBeforeMonth 3 = 59 ∧
    daysBeforeMonth 4 = 90 ∧ daysBeforeMonth 5 = 120 ∧ daysBeforeMonth 6 = 151 ∧
    daysBeforeMonth 7 = 181 ∧ daysBeforeMonth 8 = 212 ∧ daysBeforeMonth 9 = 243 ∧
    daysBeforeMonth 10 = 273 ∧ daysBeforeMonth 11 = 304 ∧ daysBeforeMonth 12 = 334 := by
  decide

theorem monthDay_eq (d : Int) (h0 : 0 ≤ d) (h1 : d ≤ 364) :
    ∃ m b, monthDay d = (m, d - b + 1) ∧ daysBeforeMonth m = b ∧ b ≤ d ∧ d - b ≤ 30 ∧
      1 ≤ m ∧ m ≤ 12 ∧ (m > 2 ↔ 59 ≤ d) := by
  obtain ⟨v1, v2, v3, v4, v5, v6, v7, v8, v9, v10, v11, v12⟩ := daysBeforeMonth_values
  unfold monthDay
  by_cases c1 : d < 31
  · rw [if_pos c1]
    exact ⟨1, 0, by simp, v1, by omega⟩
  rw [if_neg c1]
  by_cases c2 : d < 59
  · rw [if_pos c2]
    exact ⟨2, 31, rfl, v2, by omega⟩
  rw [if_neg c2]
  by_cases c3 : d < 90
  · rw [if_pos c3]
    exact ⟨3, 59, rfl, v3, by omega⟩
  rw [if_neg c3]
  by_cases c4 : d < 120
  · rw [if_pos c4]
    exact ⟨4, 90, rfl, v4, by omega⟩
  rw [if_neg c4]
  by_cases c5 : d < 151
  · rw [if_pos c5]
    exact ⟨5, 120, rfl, v5, by omega⟩
  rw [if_neg c5]
  by_cases c6 : d < 181
  · rw [if_pos c6]
    exact ⟨6, 151, rfl, v6, by omega⟩
  rw [if_neg c6]
  by_cases c7 : d < 212
  · rw [if_pos c7]
    exact ⟨7, 181, rfl, v7, by omega⟩
  rw [if_neg c7]
  by_cases c8 : d < 243
  · rw [if_pos c8]
    exact ⟨8, 212, rfl, v8, by omega⟩
  rw [if_neg c8]
  by_cases c9 : d < 273
  · rw [if_pos c9]
    exact ⟨9, 243, rfl, v9, by omega⟩
  rw [if_neg c9]
  by_cases c10 : d < 304
  · rw [if_pos c10]
    exact ⟨10, 273, rfl, v10, by omega⟩
  rw [if_neg c10]
  by_cases c11 : d < 334
  · rw [if_pos c11]
    exact ⟨11, 304, rfl, v11, by omega⟩
  rw [if_neg c11]
  exact ⟨12, 334, rfl, v12, by omega⟩

theorem monthDay_spec (d : Int) (h0 : 0 ≤ d) (h1 : d ≤ 364) :
    daysBeforeMonth (monthDay d).1 + (monthDay d).2 - 1 = d ∧
    1 ≤ (monthDay d).1 ∧ (monthDay d).1 ≤ 12 ∧ 1 ≤ (monthDay d).2 ∧ (monthDay d).2 ≤ 31 ∧
    ((monthDay d).1 > 2 ↔ 59 ≤ d) := by
  obtain ⟨m, b, hmd, hb, hle, hlt, hm1, hm12, hiff⟩ := monthDay_eq d h0 h1
  rw [hmd]
  dsimp only
  rw [hb]
  omega

theorem daysFromCivil_civilFromDays (z : Int) :
    daysFromCivil (civilFromDays z).1 (civilFromDays z).2.1 (civilFromDays z).2.2 = z := by
  obtain ⟨hsum, hb0, hb3, hc0, hc24, he0, he3, hy0, hy⟩ := cycles_spec (z + 719162)
  obtain ⟨v1, v2, v3, v4, v5, v6, v7, v8, v9, v10, v11, v12⟩ := daysBeforeMonth_values
  unfold civilFromDays
  simp only []
  generalize (cycles (z + 719162)).1 = a at *
  generalize (cycles (z + 719162)).2.1 = b at *
  generalize (cycles (z + 719162)).2.2.1 = c at *
  generalize (cycles (z + 719162)).2.2.2.1 = e at *
  generalize (cycles (z + 719162)).2.2.2.2 = yday at *
  obtain ⟨d4, d100, d400, hleap⟩ := year_divs a b c e ⟨hb0, hb3⟩ ⟨hc0, hc24⟩ ⟨he0, he3⟩
  by_cases hl : isLeap (400 * a + 100 * b + 4 * c + e + 1) = true
  · by_cases h59 : yday = 59
    · rw [if_pos ⟨hl, h59⟩]
      simp only [daysFromCivil, d4, d100, d400, hl, v2]
      norm_num
      omega
    · rw [if_neg (fun h => h59 h.2)]
      by_cases hgt : yday > 59
      · rw [if_pos ⟨hl, hgt⟩]
        obtain ⟨m1, _, _, _, _, m6⟩ := monthDay_spec (yday - 1) (by omega) (by omega)
        have hm : (monthDay (yday - 1)).1 > 2 := m6.mpr (by omega)
        simp only [daysFromCivil, d4, d100, d400, hl, hm, and_self, if_true]
        omega
      · rw [if_neg (fun h => hgt h.2)]
        obtain ⟨m1, _, _, _, _, m6⟩ := monthDay_spec yday (by omega) (by omega)
        have hm : ¬ (monthDay yday).1 > 2 := fun h => by have := m6.mp h; omega
        simp only [daysFromCivil, d4, d100, d400, hl, hm, and_false, if_false]
        omega
  · have hy364 : yday ≤ 364 := by
      rcases hy with h | ⟨_, h3, h⟩
      · exact h
      · exact absurd (hleap.mpr ⟨h3, h⟩) hl
    rw [if_neg (fun h => hl h.1), if_neg (fun h => hl h.1)]
    obtain ⟨m1, _, _, _, _, m6⟩ := monthDay_spec yday hy0 hy364
    simp only [daysFromCivil, d4, d100, d400, hl, Bool.false_eq_true, false_and, if_false]
    omega

/-- The calendar fields of a time denote the second the time falls in. -/
theorem civil_toUnix (t : Time) : t.civil.toUnix = t.unixNano / 1000000000 := by
  unfold Civil.toUnix Time.civil
  simp only []
  rw [daysFromCivil_civilFromDays]
  omega

theorem civilFromDays_valid (z : Int) :
    1 ≤ (civilFromDays z).2.1 ∧ (civilFromDays z).2.1 ≤ 12 ∧
    1 ≤ (civilFromDays z).2.2 ∧ (civilFromDays z).2.2 ≤ 31 := by
  obtain ⟨hsum, hb0, hb3, hc0, hc24, he0, he3, hy0, hy⟩ := cycles_spec (z + 719162)
  unfold civilFromDays
  simp only []
  generalize (cycles (z + 719162)).1 = a at *
  generalize (cycles (z + 719162)).2.1 = b at *
  generalize (cycles (z + 719162)).2.2.1 = c at *
  generalize (cycles (z + 719162)).2.2.2.1 = e at *
  generalize (cycles (z + 719162)).2.2.2.2 = yday at *
  obtain ⟨-, -, -, hleap⟩ := year_divs a b c e ⟨hb0, hb3⟩ ⟨hc0, hc24⟩ ⟨he0, he3⟩
  by_cases hl : isLeap (400 * a + 100 * b + 4 * c + e + 1) = true
  · by_cases h59 : yday = 59
    · rw [if_pos ⟨hl, h59⟩]
      dsimp only
      omega
    · rw [if_neg (fun h => h59 h.2)]
      by_cases hgt : yday > 59
      · rw [if_pos ⟨hl, hgt⟩]
        obtain ⟨-, m2, m3, m4, m5, -⟩ := monthDay_spec (yday - 1) (by omega) (by omega)
        exact ⟨m2, m3, m4, m5⟩
      · rw [if_neg (fun h => hgt h.2)]
        obtain ⟨-, m2, m3, m4, m5, -⟩ := monthDay_spec yday (by omega) (by omega)
        exact ⟨m2, m3, m4, m5⟩
  · have hy364 : yday ≤ 364 := by
      rcases hy with h | ⟨_, h3, h⟩
      · exact h
      · exact absurd (hleap.mpr ⟨h3, h⟩) hl
    rw [if_neg (fun h => hl h.1), if_neg (fun h => hl h.1)]
    obtain ⟨-, m2, m3, m4, m5, -⟩ := monthDay_spec yday hy0 hy364
    exact ⟨m2, m3, m4, m5⟩

/-- The calendar fields of a time are in the ranges RFC 3339 asks for. -/
theorem civil_valid (t : Time) :
    1 ≤ t.civil.month ∧ t.civil.month ≤ 12 ∧ 1 ≤ t.civil.day ∧ t.civil.day ≤ 31 ∧
    0 ≤ t.civil.hour ∧ t.civil.hour ≤ 23 ∧ 0 ≤ t.civil.minute ∧ t.civil.minute ≤ 59 ∧
    0 ≤ t.civil.second ∧ t.civil.second ≤ 59 := by
  obtain ⟨h1, h2, h3, h4⟩ := civilFromDays_valid ((t.unixNano / 1000000000 + t.offset) / 86400)
  unfold Time.civil
  simp only []
  refine ⟨h1, h2, h3, h4, ?_⟩
  omega

theorem wrapInt64_of_range (x : Int) (h0 : -9223372036854775808 ≤ x)
    (h1 : x ≤ 9223372036854775807) : wrapInt64 x = x := by
  unfold wrapInt64
  omega

theorem secondsDuration_of_range (n : Int) (h0 : -9223372036 ≤ n) (h1 : n ≤ 9223372036) :
    secondsDuration n = n * 1000000000 := by
  unfold secondsDuration Second
  rw [wrapInt64_of_range n (by omega) (by omega), wrapInt64_of_range _ (by omega) (by omega)]

/-- C3, as the code has it: for a grant of 1 to 9223372036 seconds, whose
nanosecond count fits a signed 64-bit integer, the expiry instant is the
exchange time plus the lifetime; `token_expiry` is the RFC 3339 text of its
calendar fields at offset zero, whatever the local offset of the clock, with
month, day, hour, minute and second in range; the text has no fraction of a second, so it denotes the whole second the expiry
instant falls in, which is later than the exchange time. -/
theorem token_expiry_is_exchange_plus_lifetime {κ : Type} (env : Env κ) (jsonData : String)
    (token : gsaToken)
    (hget : env.md.get "instance/service-accounts/default/token" = .ok jsonData)
    (hjson : env.unmarshal jsonData = .ok token)
    (hpos : 1 ≤ token.ExpiresIn) (hmax : token.ExpiresIn ≤ 9223372036) :
    ∃ c : Civil,
      getCredentials env =
        ⟨[.metadata "Get" "instance/service-accounts/default/token",
            .stdoutJSON (.obj [("access_token", .str token.AccessToken),
              ("token_expiry", .str c.rfc3339)])], .ok ()⟩ ∧
      c = (Time.mk (env.now.unixNano + token.ExpiresIn * 1000000000) 0).civil ∧
      c.zone = 0 ∧
      (1 ≤ c.month ∧ c.month ≤ 12 ∧ 1 ≤ c.day ∧ c.day ≤ 31 ∧ 0 ≤ c.hour ∧ c.hour ≤ 23 ∧
        0 ≤ c.minute ∧ c.minute ≤ 59 ∧ 0 ≤ c.second ∧ c.second ≤ 59) ∧
      c.toUnix = (env.now.unixNano + token.ExpiresIn * 1000000000) / 1000000000 ∧
      env.now.unixNano < c.toUnix * 1000000000 ∧
      c.toUnix * 1000000000 ≤ env.now.unixNano + token.ExpiresIn * 1000000000 ∧
      env.now.unixNano + token.ExpiresIn * 1000000000 < c.toUnix * 1000000000 + 1000000000 ∧
      (env.now.unixNano % 1000000000 = 0 →
        c.toUnix * 1000000000 = env.now.unixNano + token.ExpiresIn * 1000000000) ∧
      ∀ offset, getCredentials { env with now := { env.now with offset := offset } } =
        getCredentials env := by
  have hcred : ∀ now : Time, now.unixNano = env.now.unixNano →
      credential token now = ⟨token.AccessToken,
        (Time.mk (env.now.unixNano + token.ExpiresIn * 1000000000) 0).civil.rfc3339⟩ := by
    intro now hnow
    unfold credential
    simp only [secondsDuration_of_range token.ExpiresIn (by omega) hmax, Time.Add, Time.UTC,
      Time.Format, hnow]
  have hc := civil_toUnix (Time.mk (env.now.unixNano + token.ExpiresIn * 1000000000) 0)
  simp only [] at hc
  refine ⟨_, ?_, rfl, rfl, civil_valid _, hc, ?_, ?_, ?_, ?_, ?_⟩
  · rw [getCredentials_granted env jsonData token hget hjson, hcred env.now rfl]
    rfl
  · rw [hc]; omega
  · rw [hc]; omega
  · rw [hc]; omega
  · intro h; rw [hc]; omega
  · intro offset
    rw [getCredentials_granted env jsonData token hget hjson,
      getCredentials_granted { env with now := { env.now with offset := offset } } jsonData token
        hget hjson, hcred env.now rfl, hcred { env.now with offset := offset } rfl]

theorem token_expiry_example :
    ∃ c : Civil,
      getCredentials sampleEnv =
        ⟨[.metadata "Get" "instance/service-accounts/default/token",
            .stdoutJSON (.obj [("access_token", .str "ya29.a0"),
              ("token_expiry", .str c.rfc3339)])], .ok ()⟩ ∧
      c.rfc3339 = "2023-11-14T23:13:19Z" ∧
      c.toUnix = 1700003599 ∧
      sampleEnv.now.unixNano = 1700000000123456789 := by
  obtain ⟨c, h1, h2, -, -, h4, -⟩ := token_expiry_is_exchange_plus_lifetime sampleEnv "grant"
    { AccessToken := "ya29.a0", ExpiresIn := 3599, TokenType := "Bearer" } rfl rfl
    (by decide) (by decide)
  refine ⟨c, h1, ?_, ?_, rfl⟩
  · rw [h2]; rfl
  · rw [h4]; rfl

/-- C3 fails as stated.  A grant of lifetime 0 yields the timestamp of the
exchange time itself, not a later one; a grant of one second taken half a
second after a whole second yields a timestamp half a second after the
exchange time; a grant of 9223372037 seconds, whose nanosecond count wraps in
64 bits, yields a timestamp in the year 1731. -/
theorem token_expiry_not_always_later_by_lifetime :
    (main sampleEnvZeroGrant =
      ⟨[.metadata "Get" "instance/service-accounts/default/token",
          .stdoutJSON (.obj [("access_token", .str "ya29.a0"),
            ("token_expiry", .str "2023-11-14T22:13:20Z")])], .ok ()⟩ ∧
      sampleEnvZeroGrant.now.UTC.Format = "2023-11-14T22:13:20Z" ∧
      sampleEnvZeroGrant.now.UTC.civil.toUnix * 1000000000 = sampleEnvZeroGrant.now.unixNano) ∧
    (main sampleEnvHalfSecond =
      ⟨[.metadata "Get" "instance/service-accounts/default/token",
          .stdoutJSON (.obj [("access_token", .str "ya29.a0"),
            ("token_expiry", .str "2023-11-14T22:13:21Z")])], .ok ()⟩ ∧
      (Time.mk 1700000001000000000 0).Format = "2023-11-14T22:13:21Z" ∧
      sampleEnvHalfSecond.now.unixNano = 1700000000500000000) ∧
    (main sampleEnvLongGrant =
      ⟨[.metadata "Get" "instance/service-accounts/default/token",
          .stdoutJSON (.obj [("access_token", .str "ya29.a0"),
            ("token_expiry", .str "1731-08-05T22:26:03Z")])], .ok ()⟩ ∧
      sampleEnvLongGrant.now.UTC.Format = "2023-11-14T22:13:20Z") :=
  ⟨⟨by rfl, by rfl, by rfl⟩, ⟨by rfl, by rfl, by rfl⟩, ⟨by rfl, by rfl⟩⟩


/-! ## Lines of a document -/

theorem splitLinesAux_nofeed (x : List Char) (h : '\n' ∉ x) : splitLinesAux x = [x] := by
  induction x with
  | nil => rfl
  | cons c cs ih =>
    have hc : c ≠ '\n' := fun hc => h (hc ▸ List.mem_cons_self _ _)
    have hcs : '\n' ∉ cs := fun hm => h (List.mem_cons_of_mem _ hm)
    simp only [splitLinesAux, if_neg hc, ih hcs]

theorem splitLinesAux_append (x y : List Char) (h : '\n' ∉ x) :
    splitLinesAux (x ++ '\n' :: y) = x :: splitLinesAux y := by
  induction x with
  | nil => simp [splitLinesAux]
  | cons c cs ih =>
    have hc : c ≠ '\n' := fun hc => h (hc ▸ List.mem_cons_self _ _)
    have hcs : '\n' ∉ cs := fun hm => h (List.mem_cons_of_mem _ hm)
    rw [List.cons_append, splitLinesAux, if_neg hc, ih hcs]

theorem splitLinesAux_joinSep (ls : List String) (last : String)
    (h : ∀ l ∈ ls, ¬ hasLineFeed l) (hlast : ¬ hasLineFeed last) :
    (splitLinesAux (joinSep (ls.map (fun l => (l.data, '\n'))) last.data)).map String.mk =
      ls ++ [last] := by
  induction ls with
  | nil => simp [joinSep, splitLinesAux_nofeed _ hlast]
  | cons l rest ih =>
    have hl : '\n' ∉ l.data := h l (List.mem_cons_self _ _)
    simp only [List.map_cons, joinSep, splitLinesAux_append _ _ hl, List.cons_append,
      ih (fun l' hl' => h l' (List.mem_cons_of_mem _ hl'))]

theorem hasLineFeed_append (a b : String) :
    hasLineFeed (a ++ b) ↔ hasLineFeed a ∨ hasLineFeed b := by
  unfold hasLineFeed
  rw [String.data_append, List.mem_append]

theorem splitLines_staticDocument (ca ep n k t : String)
    (hca : ¬ hasLineFeed ca) (hep : ¬ hasLineFeed ep) (hn : ¬ hasLineFeed n)
    (hk : ¬ hasLineFeed k) (ht : ¬ hasLineFeed t) :
    splitLines (staticDocument ca ep n k t) = staticLines ca ep n k t := by
  have hdata : (staticDocument ca ep n k t).data =
      joinSep (((staticLines ca ep n k t).dropLast).map (fun l => (l.data, '\n')))
        ("          token: " ++ t).data := by
    simp [staticDocument, staticLines, joinSep, String.data_append]
  unfold splitLines
  rw [hdata, splitLinesAux_joinSep]
  · rfl
  · intro l hl
    simp only [staticLines, List.dropLast, List.mem_cons, List.mem_singleton,
      List.not_mem_nil, or_false] at hl
    rcases hl with h | h | h | h | h | h | h | h | h | h | h | h | h | h | h | h | h | h <;>
      subst h <;>
      first
        | decide
        | (rw [hasLineFeed_append]; rintro (h | h)
           · revert h; decide
           · first | exact hca h | exact hep h | exact hn h | exact hk h)
  · rw [hasLineFeed_append]; rintro (h | h)
    · revert h; decide
    · exact ht h

theorem splitLines_dynamicDocument (ca ep n p : String)
    (hca : ¬ hasLineFeed ca) (hep : ¬ hasLineFeed ep) (hn : ¬ hasLineFeed n)
    (hp : ¬ hasLineFeed p) :
    splitLines (dynamicDocument ca ep n p) = dynamicLines ca ep n p := by
  have hdata : (dynamicDocument ca ep n p).data =
      joinSep (((dynamicLines ca ep n p).dropLast).map (fun l => (l.data, '\n')))
        ("      name: gcp" : String).data := by
    simp [dynamicDocument, dynamicHead, dynamicTail, dynamicLines, joinSep, String.data_append]
  unfold splitLines
  rw [hdata, splitLinesAux_joinSep]
  · rfl
  · intro l hl
    simp only [dynamicLines, List.dropLast, List.mem_cons, List.mem_singleton,
      List.not_mem_nil, or_false] at hl
    rcases hl with h | h | h | h | h | h | h | h | h | h | h | h | h | h | h | h | h | h | h |
      h | h | h | h | h <;>
      subst h <;>
      first
        | decide
        | (rw [hasLineFeed_append]; rintro (h | h)
           · revert h; decide
           · first | exact hca h | exact hep h | exact hn h | exact hp h)
  · decide


theorem parsedDocs_resolved (doc : String) (p z n : String) :
    parsedDocs [.newHTTPClient, .gkeNew, .clusterGet p z n, .restConfigFromKubeConfig doc] =
      [doc] ∧
    parsedDocs [.newHTTPClient, .gkeNew, .clusterGet p z n, .getwd,
      .restConfigFromKubeConfig doc] = [doc] :=
  ⟨rfl, rfl⟩

/-- C5 fails as stated: two identities with different service account names
(and different tokens) render, for the same cluster, the same static document,
so no function of the document, hence no parser, returns the service account
name of both. -/
theorem static_rendering_is_not_injective :
    sampleVMTwinA.KsaName ≠ "" ∧ sampleVMTwinA.KsaToken ≠ "" ∧
    sampleVMTwinB.KsaName ≠ "" ∧ sampleVMTwinB.KsaToken ≠ "" ∧
    sampleVMTwinA.KsaName ≠ sampleVMTwinB.KsaName ∧
    (∃ doc, parsedDocs (newKubeConfig sampleEnv sampleVMTwinA).trace = [doc] ∧
      parsedDocs (newKubeConfig sampleEnv sampleVMTwinB).trace = [doc]) ∧
    ¬ ∃ userName : String → String,
      (∀ doc ∈ parsedDocs (newKubeConfig sampleEnv sampleVMTwinA).trace,
        userName doc = sampleVMTwinA.KsaName) ∧
      (∀ doc ∈ parsedDocs (newKubeConfig sampleEnv sampleVMTwinB).trace,
        userName doc = sampleVMTwinB.KsaName) := by
  have hA : parsedDocs (newKubeConfig sampleEnv sampleVMTwinA).trace =
      [staticDocument "Q0E=" "10.1.1.1" "c" "a" twinToken] := by rfl
  have hB : parsedDocs (newKubeConfig sampleEnv sampleVMTwinB).trace =
      [staticDocument "Q0E=" "10.1.1.1" "c" "a" twinToken] := by decide
  have hne : sampleVMTwinA.KsaName ≠ sampleVMTwinB.KsaName := by decide
  refine ⟨by decide, by decide, by decide, by decide, hne, ⟨_, hA, hB⟩, ?_⟩
  rintro ⟨userName, h1, h2⟩
  rw [hA] at h1
  rw [hB] at h2
  exact hne ((h1 _ (List.mem_singleton.mpr rfl)).symm.trans (h2 _ (List.mem_singleton.mpr rfl)))



/-! ## Reading a document back -/

theorem scalarOf_plain (v : String) (h : plainScalar v = true) : scalarOf v = some (.str v) := by
  unfold scalarOf
  rw [if_pos h]

theorem plainScalar_noFeed (s : String) (h : plainScalar s = true) : ¬ hasLineFeed s := by
  unfold plainScalar at h
  simp only [Bool.and_eq_true] at h
  intro hf
  have := List.all_eq_true.mp h.1.1.2 '\n' hf
  exact absurd this (by decide)

theorem tokLine_entry (n : Nat) (dash : Bool) (key v line : String)
    (hline : tokLine 0 line.data =
      ((scalarOf v).map (fun s => Tok.mk n dash key (some s))).map some)
    (hv : plainScalar v = true) :
    tokLine 0 line.data = some (some ⟨n, dash, key, some (.str v)⟩) := by
  rw [hline, scalarOf_plain v hv]
  rfl

theorem tokensOf_cons_some (l : String) (rest : List String) (t : Tok) (ts : List Tok)
    (h1 : tokLine 0 l.data = some (some t)) (h2 : tokensOf rest = some ts) :
    tokensOf (l :: rest) = some (t :: ts) := by
  simp only [tokensOf, h1, h2, Option.map_some']

theorem tokensOf_cons_blank (l : String) (rest : List String) (ts : List Tok)
    (h1 : tokLine 0 l.data = some none) (h2 : tokensOf rest = some ts) :
    tokensOf (l :: rest) = some ts := by
  simp only [tokensOf, h1, h2]

theorem noFeed_of_server (ep : String) (h : plainScalar ("https://" ++ ep) = true) :
    ¬ hasLineFeed ep :=
  fun hf => plainScalar_noFeed _ h ((hasLineFeed_append _ _).mpr (Or.inr hf))

theorem tokensOf_staticLines (ca ep n k t : String)
    (hca : plainScalar ca = true) (hep : plainScalar ("https://" ++ ep) = true)
    (hn : plainScalar n = true) (hk : plainScalar k = true) (ht : plainScalar t = true) :
    tokensOf (staticLines ca ep n k t) = some (staticToks ca ep n k t) :=
    tokensOf_cons_blank _ _ _ rfl <|
    tokensOf_cons_some _ _ _ _ rfl <|
    tokensOf_cons_some _ _ _ _ rfl <|
    tokensOf_cons_some _ _ _ _ rfl <|
    tokensOf_cons_some _ _ _ _ (tokLine_entry 10 false "certificate-authority-data" ca _ rfl hca) <|
    tokensOf_cons_some _ _ _ _ (tokLine_entry 10 false "server" ("https://" ++ ep) _ rfl hep) <|
    tokensOf_cons_some _ _ _ _ (tokLine_entry 8 false "name" n _ rfl hn) <|
    tokensOf_cons_some _ _ _ _ rfl <|
    tokensOf_cons_some _ _ _ _ rfl <|
    tokensOf_cons_some _ _ _ _ (tokLine_entry 10 false "cluster" n _ rfl hn) <|
    tokensOf_cons_some _ _ _ _ (tokLine_entry 10 false "user" k _ rfl hk) <|
    tokensOf_cons_some _ _ _ _ (tokLine_entry 8 false "name" n _ rfl hn) <|
    tokensOf_cons_some _ _ _ _ (tokLine_entry 6 false "current-context" n _ rfl hn) <|
    tokensOf_cons_some _ _ _ _ rfl <|
    tokensOf_cons_some _ _ _ _ rfl <|
    tokensOf_cons_some _ _ _ _ rfl <|
    tokensOf_cons_some _ _ _ _ (tokLine_entry 6 true "name" k _ rfl hk) <|
    tokensOf_cons_some _ _ _ _ rfl <|
    tokensOf_cons_some _ _ _ _ (tokLine_entry 10 false "token" t _ rfl ht) <|
    rfl

theorem tokensOf_dynamicLines (ca ep n p : String)
    (hca : plainScalar ca = true) (hep : plainScalar ("https://" ++ ep) = true)
    (hn : plainScalar n = true) (hp : plainScalar p = true) :
    tokensOf (dynamicLines ca ep n p) = some (dynamicToks ca ep n p) :=
    tokensOf_cons_blank _ _ _ rfl <|
    tokensOf_cons_some _ _ _ _ rfl <|
    tokensOf_cons_some _ _ _ _ rfl <|
    tokensOf_cons_some _ _ _ _ rfl <|
    tokensOf_cons_some _ _ _ _ (tokLine_entry 4 false "certificate-authority-data" ca _ rfl hca) <|
    tokensOf_cons_some _ _ _ _ (tokLine_entry 4 false "server" ("https://" ++ ep) _ rfl hep) <|
    tokensOf_cons_some _ _ _ _ (tokLine_entry 2 false "name" n _ rfl hn) <|
    tokensOf_cons_some _ _ _ _ rfl <|
    tokensOf_cons_some _ _ _ _ rfl <|
    tokensOf_cons_some _ _ _ _ (tokLine_entry 4 false "cluster" n _ rfl hn) <|
    tokensOf_cons_some _ _ _ _ (tokLine_entry 4 false "user" n _ rfl hn) <|
    tokensOf_cons_some _ _ _ _ (tokLine_entry 2 false "name" n _ rfl hn) <|
    tokensOf_cons_some _ _ _ _ (tokLine_entry 0 false "current-context" n _ rfl hn) <|
    tokensOf_cons_some _ _ _ _ rfl <|
    tokensOf_cons_some _ _ _ _ rfl <|
    tokensOf_cons_some _ _ _ _ rfl <|
    tokensOf_cons_some _ _ _ _ (tokLine_entry 0 true "name" n _ rfl hn) <|
    tokensOf_cons_some _ _ _ _ rfl <|
    tokensOf_cons_some _ _ _ _ rfl <|
    tokensOf_cons_some _ _ _ _ rfl <|
    tokensOf_cons_some _ _ _ _ rfl <|
    tokensOf_cons_some _ _ _ _ (tokLine_entry 8 false "cmd-path" p _ rfl hp) <|
    tokensOf_cons_some _ _ _ _ rfl <|
    tokensOf_cons_some _ _ _ _ rfl <|
    tokensOf_cons_some _ _ _ _ rfl <|
    rfl


theorem flatten_staticToks (ca ep n k t : String) :
    ((staticToks ca ep n k t).foldl flattenStep ([], [])).2 = staticPaths ca ep n k t := by
  rfl

theorem nodup_staticPaths (ca ep n k t : String) :
    ((staticPaths ca ep n k t).map Prod.fst).Nodup := by
  simp only [staticPaths, List.map]
  decide


theorem namesOf_staticPaths (ca ep n k t : String) :
    namesOf (staticPaths ca ep n k t) = some ⟨[n], [⟨n, n, k⟩], [k], n⟩ := by
  have c1 : itemCount (staticPaths ca ep n k t) "clusters" = 1 := by rfl
  have c2 : itemCount (staticPaths ca ep n k t) "contexts" = 1 := by rfl
  have c3 : itemCount (staticPaths ca ep n k t) "users" = 1 := by rfl
  have t1 : textAt (staticPaths ca ep n k t) [.key "clusters", .idx 0, .key "name"] = some n := by
    rfl
  have t2 : textAt (staticPaths ca ep n k t) [.key "contexts", .idx 0, .key "name"] = some n := by
    rfl
  have t3 : textAt (staticPaths ca ep n k t)
      [.key "contexts", .idx 0, .key "context", .key "cluster"] = some n := by rfl
  have t4 : textAt (staticPaths ca ep n k t)
      [.key "contexts", .idx 0, .key "context", .key "user"] = some k := by rfl
  have t5 : textAt (staticPaths ca ep n k t) [.key "users", .idx 0, .key "name"] = some k := by
    rfl
  have t6 : textAt (staticPaths ca ep n k t) [.key "current-context"] = some n := by rfl
  unfold namesOf
  simp only [c1, c2, c3, collect, t1, t2, t3, t4, t5, t6, List.nil_append]

theorem flatten_dynamicToks (ca ep n p : String) :
    ((dynamicToks ca ep n p).foldl flattenStep ([], [])).2 = dynamicPaths ca ep n p := by
  rfl

theorem nodup_dynamicPaths (ca ep n p : String) :
    ((dynamicPaths ca ep n p).map Prod.fst).Nodup := by
  simp only [dynamicPaths, List.map]
  decide


theorem namesOf_dynamicPaths (ca ep n p : String) :
    namesOf (dynamicPaths ca ep n p) = some ⟨[n], [⟨n, n, n⟩], [n], n⟩ := by
  have c1 : itemCount (dynamicPaths ca ep n p) "clusters" = 1 := by rfl
  have c2 : itemCount (dynamicPaths ca ep n p) "contexts" = 1 := by rfl
  have c3 : itemCount (dynamicPaths ca ep n p) "users" = 1 := by rfl
  have t1 : textAt (dynamicPaths ca ep n p) [.key "clusters", .idx 0, .key "name"] = some n := by
    rfl
  have t2 : textAt (dynamicPaths ca ep n p) [.key "contexts", .idx 0, .key "name"] = some n := by
    rfl
  have t3 : textAt (dynamicPaths ca ep n p)
      [.key "contexts", .idx 0, .key "context", .key "cluster"] = some n := by rfl
  have t4 : textAt (dynamicPaths ca ep n p)
      [.key "contexts", .idx 0, .key "context", .key "user"] = some n := by rfl
  have t5 : textAt (dynamicPaths ca ep n p) [.key "users", .idx 0, .key "name"] = some n := by
    rfl
  have t6 : textAt (dynamicPaths ca ep n p) [.key "current-context"] = some n := by rfl
  unfold namesOf
  simp only [c1, c2, c3, collect, t1, t2, t3, t4, t5, t6, List.nil_append]


/-- Reading back the static document. -/
theorem readKubeConfig_static (ca ep n k t : String)
    (hca : plainScalar ca = true) (hep : plainScalar ("https://" ++ ep) = true)
    (hn : plainScalar n = true) (hk : plainScalar k = true) (ht : plainScalar t = true) :
    readKubeConfig (staticDocument ca ep n k t) = some ⟨[n], [⟨n, n, k⟩], [k], n⟩ := by
  have hl := splitLines_staticDocument ca ep n k t (plainScalar_noFeed _ hca)
    (noFeed_of_server ep hep) (plainScalar_noFeed _ hn) (plainScalar_noFeed _ hk)
    (plainScalar_noFeed _ ht)
  unfold readKubeConfig yamlPaths
  rw [hl, tokensOf_staticLines ca ep n k t hca hep hn hk ht]
  simp only [Option.map_some', flatten_staticToks]
  rw [if_pos (nodup_staticPaths ca ep n k t)]
  exact namesOf_staticPaths ca ep n k t

/-- Reading back the dynamic document. -/
theorem readKubeConfig_dynamic (ca ep n p : String)
    (hca : plainScalar ca = true) (hep : plainScalar ("https://" ++ ep) = true)
    (hn : plainScalar n = true) (hp : plainScalar p = true) :
    readKubeConfig (dynamicDocument ca ep n p) = some ⟨[n], [⟨n, n, n⟩], [n], n⟩ := by
  have hl := splitLines_dynamicDocument ca ep n p (plainScalar_noFeed _ hca)
    (noFeed_of_server ep hep) (plainScalar_noFeed _ hn) (plainScalar_noFeed _ hp)
  unfold readKubeConfig yamlPaths
  rw [hl, tokensOf_dynamicLines ca ep n p hca hep hn hp]
  simp only [Option.map_some', flatten_dynamicToks]
  rw [if_pos (nodup_dynamicPaths ca ep n p)]
  exact namesOf_dynamicPaths ca ep n p

/-- C5, as the code has it: when the cluster is resolved and the inserted
values are plain scalars (`plainScalar`: the certificate, the server URL, the
cluster name, and `KsaName` and `KsaToken` or the command path), reading back
the one document `newKubeConfig` hands to the parser yields exactly one
cluster entry, one context and one user entry; current-context, the context's
name and cluster reference and the cluster's name are the cluster's canonical
name; the user's name and the context's user reference are the canonical name
in the dynamic variant and `KsaName` in the static variant. -/
theorem rendered_document_round_trip {κ : Type} (env : Env κ) (vm : vmInfo)
    (ca ep name : String)
    (hhttp : env.newHTTPClient = none) (hgke : env.gkeNew = none)
    (hcluster : env.clusterGet vm.ProjectID vm.ClusterZone vm.ClusterName =
      .ok ⟨some ⟨ca⟩, ep, name⟩)
    (hca : plainScalar ca = true) (hep : plainScalar ("https://" ++ ep) = true)
    (hn : plainScalar name = true) :
    (vm.KsaName ≠ "" → vm.KsaToken ≠ "" →
      plainScalar vm.KsaName = true → plainScalar vm.KsaToken = true →
      ∃ doc, parsedDocs (newKubeConfig env vm).trace = [doc] ∧
        readKubeConfig doc =
          some ⟨[name], [⟨name, name, vm.KsaName⟩], [vm.KsaName], name⟩) ∧
    (∀ pwd arg0 rest, vm.KsaName = "" ∨ vm.KsaToken = "" →
      env.getwd = .ok pwd → env.args = arg0 :: rest →
      plainScalar (env.join [pwd, arg0]) = true →
      ∃ doc, parsedDocs (newKubeConfig env vm).trace = [doc] ∧
        readKubeConfig doc = some ⟨[name], [⟨name, name, name⟩], [name], name⟩) := by
  constructor
  · intro hname htoken hk ht
    refine ⟨staticDocument ca ep name vm.KsaName vm.KsaToken, ?_,
      readKubeConfig_static ca ep name _ _ hca hep hn hk ht⟩
    rw [newKubeConfig_resolved env vm _ _ [] hhttp hgke hcluster
      (kubeConfig_static env vm ca ep name hname htoken)]
    rfl
  · intro pwd arg0 rest hmode hwd hargs hp
    refine ⟨dynamicDocument ca ep name (env.join [pwd, arg0]), ?_,
      readKubeConfig_dynamic ca ep name _ hca hep hn hp⟩
    rw [newKubeConfig_resolved env vm _ _ [.getwd] hhttp hgke hcluster
      (kubeConfig_dynamic env vm ca ep name pwd arg0 rest hmode hwd hargs)]
    rfl

theorem rendered_document_round_trip_example :
    parsedDocs (newKubeConfig sampleEnv sampleVMStatic).trace =
      [staticDocument "Q0E=" "10.1.1.1" "cluster-1" "sa" "abc"] ∧
    parsedDocs (newKubeConfig sampleEnv sampleVM).trace =
      [dynamicDocument "Q0E=" "10.1.1.1" "cluster-1" "/opt/vmdaemon"] ∧
    (∃ doc, parsedDocs (newKubeConfig sampleEnv sampleVMStatic).trace = [doc] ∧
      readKubeConfig doc =
        some ⟨["cluster-1"], [⟨"cluster-1", "cluster-1", "sa"⟩], ["sa"], "cluster-1"⟩) ∧
    (∃ doc, parsedDocs (newKubeConfig sampleEnv sampleVM).trace = [doc] ∧
      readKubeConfig doc =
        some ⟨["cluster-1"], [⟨"cluster-1", "cluster-1", "cluster-1"⟩], ["cluster-1"],
          "cluster-1"⟩) :=
  ⟨by rfl, by rfl,
   (rendered_document_round_trip sampleEnv sampleVMStatic "Q0E=" "10.1.1.1" "cluster-1"
      rfl rfl rfl (by decide) (by decide) (by decide)).1 (by decide) (by decide) (by decide)
      (by decide),
   (rendered_document_round_trip sampleEnv sampleVM "Q0E=" "10.1.1.1" "cluster-1" rfl rfl rfl
      (by decide) (by decide) (by decide)).2 "/opt" "vmdaemon" ["start"] (Or.inl rfl) rfl rfl
      (by decide)⟩
end VMDaemon
